import Mathlib

/-!
Shallow embedding of the strategy / risk / trading core of the
`axels_binance_trader_bot` repository (TypeScript), together with proofs
checking the frozen specification claims against it.

Sources embedded here:
  * `src/backend/src/utils/logger.ts` (which concatenates
    `strategy.service.ts`): indicator library and `generateSignal`.
  * `src/backend/src/services/risk.service.ts`: `calculatePositionSize`,
    `validateTrade`, `checkDailyLossLimit`, `hasOpenPosition`.
  * `src/unnamed/part_005` (`trading.service.ts`, backend and amplify
    variants): `executeTrade`, `closePosition`, `manageOpenPositions`.

Modelling conventions:
  * JavaScript numbers are modelled by `JsNumber`: an exact rational
    together with the IEEE-754 special values NaN, +Infinity, -Infinity.
    Arithmetic follows the IEEE special-value rules but is exact on the
    rational part (no rounding).  Every numeric literal of the source is
    taken at its decimal face value.
  * A possibly-`undefined` JavaScript value of number type is an
    `Option JsNumber`; JavaScript coerces `undefined` to NaN in
    arithmetic and relational positions, which `toNum` captures.
  * JavaScript arrays with holes (sparse arrays produced by `arr[i] = v`
    inside guarded loops) are `List (Option JsNumber)`; a hole is `none`.
    Where the source would produce a fully-hole array of length 0 (a JS
    array in which no element was ever assigned) the model may instead
    carry explicit `none` entries; every read the embedded code performs
    (`arr[i]`, `arr[arr.length - 1]`, `arr[arr.length - 2]`) yields
    `undefined`/`none` in both representations, so the two are
    observably identical for all embedded call sites.
  * `async` functions that only read the trade store are modelled as
    pure functions taking the store read outcome `Except Unit (List TradeRec)`
    as an argument (`Except.error` models a rejected promise from the
    persistence client, which the source catches).
-/

namespace BinanceBot

/-! ### Kernel-evaluable rational arithmetic

The `Rat` field operations of the ambient library are `@[irreducible]`,
so concrete values built from them cannot be settled by `decide`/`rfl`.
The embedding therefore computes with the wrappers below, which build
the result directly through the reducible smart constructor
`Rat.divInt`; the `q*_eq` lemmas prove each wrapper equal to the
corresponding field operation, so all order/field reasoning happens on
the ordinary operations. -/

/-- `a + b` on `ℚ`, computed through `Rat.divInt`. -/
def qadd (a b : ℚ) : ℚ :=
  Rat.divInt (a.num * b.den + b.num * a.den) (a.den * b.den)

/-- `-a` on `ℚ`, computed through `Rat.divInt`. -/
def qneg (a : ℚ) : ℚ := Rat.divInt (-a.num) a.den

/-- `a - b` on `ℚ`. -/
def qsub (a b : ℚ) : ℚ := qadd a (qneg b)

/-- `a * b` on `ℚ`, computed through `Rat.divInt`. -/
def qmul (a b : ℚ) : ℚ := Rat.divInt (a.num * b.num) (a.den * b.den)

/-- `a / b` on `ℚ` (0 when `b = 0`), computed through `Rat.divInt`. -/
def qdiv (a b : ℚ) : ℚ := Rat.divInt (a.num * b.den) (a.den * b.num)

/-- `|a|` on `ℚ`, computed through `Rat.divInt`. -/
def qabs (a : ℚ) : ℚ := Rat.divInt |a.num| a.den

theorem qadd_eq (a b : ℚ) : qadd a b = a + b := by
  conv_rhs => rw [← Rat.num_div_den a, ← Rat.num_div_den b]
  rw [div_add_div _ _ (by positivity : (a.den : ℚ) ≠ 0) (by positivity : (b.den : ℚ) ≠ 0),
    qadd, Rat.divInt_eq_div]
  push_cast
  congr 1
  ring

theorem qneg_eq (a : ℚ) : qneg a = -a := by
  conv_rhs => rw [← Rat.num_div_den a]
  rw [qneg, Rat.divInt_eq_div]
  push_cast
  ring

theorem qsub_eq (a b : ℚ) : qsub a b = a - b := by
  rw [qsub, qadd_eq, qneg_eq, sub_eq_add_neg]

theorem qmul_eq (a b : ℚ) : qmul a b = a * b := by
  conv_rhs => rw [← Rat.num_div_den a, ← Rat.num_div_den b]
  rw [div_mul_div_comm, qmul, Rat.divInt_eq_div]
  push_cast
  ring_nf

theorem qdiv_eq (a b : ℚ) : qdiv a b = a / b := by
  rcases eq_or_ne b 0 with rfl | hb
  · simp [qdiv, Rat.divInt_eq_div]
  · have hbn : (b.num : ℚ) ≠ 0 := by
      exact_mod_cast Rat.num_ne_zero.mpr hb
    conv_rhs => rw [← Rat.num_div_den a, ← Rat.num_div_den b]
    rw [qdiv, Rat.divInt_eq_div]
    push_cast
    rw [div_eq_div_iff (by exact mul_ne_zero (by positivity) hbn)
      (by exact div_ne_zero hbn (by positivity))]
    field_simp
    ring

theorem qabs_eq (a : ℚ) : qabs a = |a| := by
  conv_rhs => rw [← Rat.num_div_den a]
  rw [abs_div, abs_of_pos (show (0:ℚ) < a.den by positivity), qabs, Rat.divInt_eq_div]
  push_cast
  ring_nf

/-- A JavaScript `number`, with exact rational arithmetic on the finite
part and the IEEE-754 special values. -/
inductive JsNumber where
  | nan : JsNumber
  | inf : JsNumber
  | ninf : JsNumber
  | fin : ℚ → JsNumber
deriving DecidableEq, Repr

namespace JsNumber

/-- JS `+` on numbers. -/
def jadd : JsNumber → JsNumber → JsNumber
  | nan, _ => nan
  | _, nan => nan
  | inf, ninf => nan
  | ninf, inf => nan
  | inf, _ => inf
  | _, inf => inf
  | ninf, _ => ninf
  | _, ninf => ninf
  | fin a, fin b => fin (qadd a b)

/-- JS unary `-`. -/
def jneg : JsNumber → JsNumber
  | nan => nan
  | inf => ninf
  | ninf => inf
  | fin a => fin (qneg a)

/-- JS `-` on numbers. -/
def jsub (a b : JsNumber) : JsNumber := jadd a (jneg b)

/-- JS `*` on numbers. -/
def jmul : JsNumber → JsNumber → JsNumber
  | nan, _ => nan
  | _, nan => nan
  | inf, inf => inf
  | inf, ninf => ninf
  | ninf, inf => ninf
  | ninf, ninf => inf
  | inf, fin b => if b > 0 then inf else if b < 0 then ninf else nan
  | fin a, inf => if a > 0 then inf else if a < 0 then ninf else nan
  | ninf, fin b => if b > 0 then ninf else if b < 0 then inf else nan
  | fin a, ninf => if a > 0 then ninf else if a < 0 then inf else nan
  | fin a, fin b => fin (qmul a b)

/-- JS `/` on numbers.  Division of a nonzero finite value by zero gives
a signed infinity; `0 / 0` gives NaN; division by an infinity gives 0. -/
def jdiv : JsNumber → JsNumber → JsNumber
  | nan, _ => nan
  | _, nan => nan
  | inf, inf => nan
  | inf, ninf => nan
  | ninf, inf => nan
  | ninf, ninf => nan
  | inf, fin b => if b ≥ 0 then inf else ninf
  | ninf, fin b => if b ≥ 0 then ninf else inf
  | fin _, inf => fin 0
  | fin _, ninf => fin 0
  | fin a, fin b =>
      if b = 0 then (if a > 0 then inf else if a < 0 then ninf else nan)
      else fin (qdiv a b)

/-- JS `Math.abs`. -/
def jabs : JsNumber → JsNumber
  | nan => nan
  | inf => inf
  | ninf => inf
  | fin a => fin (qabs a)

/-- JS `<` on numbers: false whenever an operand is NaN. -/
def jlt : JsNumber → JsNumber → Bool
  | nan, _ => false
  | _, nan => false
  | inf, _ => false
  | ninf, ninf => false
  | ninf, _ => true
  | fin _, inf => true
  | fin _, ninf => false
  | fin a, fin b => decide (a < b)

/-- JS `<=` on numbers: false whenever an operand is NaN. -/
def jle : JsNumber → JsNumber → Bool
  | nan, _ => false
  | _, nan => false
  | ninf, _ => true
  | inf, inf => true
  | inf, _ => false
  | fin _, inf => true
  | fin _, ninf => false
  | fin a, fin b => decide (a ≤ b)

/-- Fuel-driven Newton iteration for the integer square root
(kernel-evaluable, unlike the library's well-founded version). -/
def isqrtIter : ℕ → ℕ → ℕ → ℕ
  | 0, _, x => x
  | fuel + 1, n, x =>
    let next := (x + n / x) / 2
    if next < x then isqrtIter fuel n next else x

/-- Floor integer square root; exact on perfect squares. -/
def isqrt (n : ℕ) : ℕ := if n ≤ 1 then n else isqrtIter n n (n / 2 + 1)

/-- Exact rational square root: exact on rationals whose numerator and
denominator are perfect squares (the only case any proof relies on). -/
def ratSqrt (q : ℚ) : ℚ := Rat.divInt (isqrt q.num.toNat) (isqrt q.den)

/-- JS `Math.sqrt`: NaN on negative input. -/
def jsqrt : JsNumber → JsNumber
  | nan => nan
  | inf => inf
  | ninf => nan
  | fin a => if a < 0 then nan else fin (ratSqrt a)

end JsNumber

open JsNumber

/-- JS coercion of a possibly-`undefined` number to a number:
`undefined` becomes NaN. -/
def toNum : Option JsNumber → JsNumber
  | none => JsNumber.nan
  | some v => v

/-- JS `a < b` where either side may be `undefined` (always false then). -/
def oLt (a b : Option JsNumber) : Bool := jlt (toNum a) (toNum b)

/-- JS `a <= b` where either side may be `undefined`. -/
def oLe (a b : Option JsNumber) : Bool := jle (toNum a) (toNum b)

/-- JS `a > b` where either side may be `undefined`. -/
def oGt (a b : Option JsNumber) : Bool := jlt (toNum b) (toNum a)

/-- JS `a >= b` where either side may be `undefined`. -/
def oGe (a b : Option JsNumber) : Bool := jle (toNum b) (toNum a)

/-- JS truthiness of a possibly-`undefined` number: `undefined`, `0` and
NaN are falsy, every other number (infinities included) is truthy. -/
def jtruthy : Option JsNumber → Bool
  | none => false
  | some JsNumber.nan => false
  | some JsNumber.inf => true
  | some JsNumber.ninf => true
  | some (JsNumber.fin q) => decide (q ≠ 0)

/-- JS array read `arr[i]` with an integer index: `undefined` outside
the array, and possibly a hole (`undefined`) inside it. -/
def agetI (xs : List (Option JsNumber)) (i : ℤ) : Option JsNumber :=
  if h : 0 ≤ i ∧ i.toNat < xs.length then (xs.get ⟨i.toNat, h.2⟩) else none

/-- JS array read `arr[i]` on a dense number array. -/
def pget (xs : List JsNumber) (i : ℤ) : Option JsNumber :=
  if h : 0 ≤ i ∧ i.toNat < xs.length then some (xs.get ⟨i.toNat, h.2⟩) else none

/-- `arr[arr.length - 1]` on a sparse array. -/
def lastA (xs : List (Option JsNumber)) : Option JsNumber :=
  agetI xs ((xs.length : ℤ) - 1)

/-- `arr[arr.length - 2]` on a sparse array. -/
def prevA (xs : List (Option JsNumber)) : Option JsNumber :=
  agetI xs ((xs.length : ℤ) - 2)

/-- JS `arr.reduce((a, b) => a + b, 0)`. -/
def jsum (xs : List JsNumber) : JsNumber := xs.foldl jadd (JsNumber.fin 0)

/-! ## Indicator library (`strategy.service.ts`)

All indicator embeddings assume `period ≥ 1`, which holds at every call
site of the repository (periods 9, 12, 14, 20, 26, 50). -/

/-- `calculateSMA(prices, period)`: `sma[i]` for `i ≥ period - 1` is the
mean of the trailing window `prices.slice(i - period + 1, i + 1)`;
earlier indices are holes; fewer than `period` prices give `[]`. -/
def calculateSMA (prices : List JsNumber) (period : ℕ) : List (Option JsNumber) :=
  if prices.length < period then []
  else
    (List.range prices.length).map fun i =>
      if i + 1 < period then none
      else some (jdiv (jsum ((prices.drop (i + 1 - period)).take period)) (fin (period : ℚ)))

/-- `calculateStandardDeviation(prices, period)`: population standard
deviation of each trailing window (`Math.sqrt` of the mean square
deviation). -/
def calculateStandardDeviation (prices : List JsNumber) (period : ℕ) :
    List (Option JsNumber) :=
  if prices.length < period then []
  else
    (List.range prices.length).map fun i =>
      if i + 1 < period then none
      else
        let window := (prices.drop (i + 1 - period)).take period
        let avg := jdiv (jsum window) (fin (period : ℚ))
        let squareDiffs := window.map fun p => jmul (jsub p avg) (jsub p avg)
        some (jsqrt (jdiv (jsum squareDiffs) (fin (period : ℚ))))

/-- Result record of `calculateBollingerBands`. -/
structure BollingerBands where
  upper : List (Option JsNumber)
  middle : List (Option JsNumber)
  lower : List (Option JsNumber)
deriving DecidableEq, Repr

/-- `calculateBollingerBands(prices, period, multiplier)`:
`upper/lower[i] = middle[i] ± multiplier * stdDev[i]` at indices where
both `middle[i]` and `stdDev[i]` are defined, holes elsewhere. -/
def calculateBollingerBands (prices : List JsNumber) (period : ℕ)
    (multiplier : JsNumber) : BollingerBands :=
  let middle := calculateSMA prices period
  let stdDev := calculateStandardDeviation prices period
  { upper := (List.range prices.length).map fun (i : ℕ) =>
      match agetI middle (i : ℤ), agetI stdDev (i : ℤ) with
      | some m, some s => some (jadd m (jmul multiplier s))
      | _, _ => none
    middle := middle
    lower := (List.range prices.length).map fun (i : ℕ) =>
      match agetI middle (i : ℤ), agetI stdDev (i : ℤ) with
      | some m, some s => some (jsub m (jmul multiplier s))
      | _, _ => none }

/-- One step of the EMA recurrence `ema[i] = price[i]*k + ema[i-1]*(1-k)`. -/
def emaStep (k prev price : JsNumber) : JsNumber :=
  jadd (jmul price k) (jmul prev (jsub (fin 1) k))

/-- The EMA value sequence from the seed through the remaining prices. -/
def emaScan (k prev : JsNumber) : List JsNumber → List JsNumber
  | [] => [prev]
  | p :: ps => prev :: emaScan k (emaStep k prev p) ps

/-- `calculateEMA(prices, period)`: seed `ema[period-1]` is the SMA of
the first `period` prices, smoothing factor `k = 2/(period+1)`; indices
before `period - 1` are holes; fewer than `period` prices give `[]`. -/
def calculateEMA (prices : List JsNumber) (period : ℕ) : List (Option JsNumber) :=
  if prices.length < period then []
  else
    let k := jdiv (fin 2) (fin (qadd (period : ℚ) 1))
    let seed := jdiv (jsum (prices.take period)) (fin (period : ℚ))
    List.replicate (period - 1) none ++ (emaScan k seed (prices.drop period)).map some

/-- The consecutive price changes `prices[i] - prices[i-1]`, `i ≥ 1`. -/
def priceChanges (prices : List JsNumber) : List JsNumber :=
  List.zipWith jsub (prices.drop 1) prices

/-- The seed loop of `calculateRSI`:
`change > 0 ? gains += change : losses -= change`. -/
def gainLossInit (s : JsNumber × JsNumber) (c : JsNumber) : JsNumber × JsNumber :=
  if jlt (fin 0) c then (jadd s.1 c, s.2) else (s.1, jsub s.2 c)

/-- One Wilder smoothing step:
`avg = (avg*(period-1) + gain) / period` for gain and for loss. -/
def wilderUpdate (period : ℚ) (s : JsNumber × JsNumber) (c : JsNumber) :
    JsNumber × JsNumber :=
  let gain := if jlt (fin 0) c then c else fin 0
  let loss := if jlt c (fin 0) then jneg c else fin 0
  (jdiv (jadd (jmul s.1 (fin (qsub period 1))) gain) (fin period),
   jdiv (jadd (jmul s.2 (fin (qsub period 1))) loss) (fin period))

/-- The sequence of `(avgGain, avgLoss)` states, starting from the seed
averages and applying one Wilder step per remaining price change. -/
def wilderScan (period : ℚ) (s : JsNumber × JsNumber) :
    List JsNumber → List (JsNumber × JsNumber)
  | [] => [s]
  | c :: cs => s :: wilderScan period (wilderUpdate period s c) cs

/-- `rsi[i] = 100 - 100/(1 + avgGain/avgLoss)`. -/
def rsiVal (s : JsNumber × JsNumber) : JsNumber :=
  jsub (fin 100) (jdiv (fin 100) (jadd (fin 1) (jdiv s.1 s.2)))

/-- `calculateRSI(prices, period)`: Wilder smoothing; first value at
index `period`; fewer than `period + 1` prices give `[]`. -/
def calculateRSI (prices : List JsNumber) (period : ℕ) : List (Option JsNumber) :=
  if prices.length < period + 1 then []
  else
    let dlt := priceChanges prices
    let seeds := (dlt.take period).foldl gainLossInit (fin 0, fin 0)
    let avg0 := (jdiv seeds.1 (fin (period : ℚ)), jdiv seeds.2 (fin (period : ℚ)))
    List.replicate period none ++
      (wilderScan (period : ℚ) avg0 (dlt.drop period)).map fun s => some (rsiVal s)

/-- Result record of `calculateMACD`. -/
structure MACDResult where
  macd : List (Option JsNumber)
  signal : List (Option JsNumber)
  histogram : List (Option JsNumber)
deriving DecidableEq, Repr

/-- `calculateMACD(prices, fastPeriod, slowPeriod, signalPeriod)`:
`macd[i] = fastEMA[i] - slowEMA[i]` where both are defined; the signal
line is the `signalPeriod`-EMA of the defined `macd` values
(`macd.filter(v => v !== undefined)`); the histogram is written at
`i + offset` with `offset = prices.length - signal.length`, as
`macd[i + offset] - signal[i]` (a hole of `signal` subtracts as NaN). -/
def calculateMACD (prices : List JsNumber)
    (fastPeriod slowPeriod signalPeriod : ℕ) : MACDResult :=
  let fastEMA := calculateEMA prices fastPeriod
  let slowEMA := calculateEMA prices slowPeriod
  let macd := (List.range prices.length).map fun (i : ℕ) =>
    match agetI fastEMA (i : ℤ), agetI slowEMA (i : ℤ) with
    | some a, some b => some (jsub a b)
    | _, _ => none
  let signal := calculateEMA macd.reduceOption signalPeriod
  let offset := prices.length - signal.length
  { macd := macd
    signal := signal
    histogram := (List.range (offset + signal.length)).map fun (idx : ℕ) =>
      if idx < offset then none
      else some (jsub (toNum (agetI macd (idx : ℤ)))
        (toNum (agetI signal ((idx : ℤ) - (offset : ℤ))))) }

/-! ## Strategy engine (`generateSignal`) -/

/-- One OHLCV candle as returned by the market-data provider
(`binance.service.ts`); only `close` is read by the strategy engine. -/
structure OHLCV where
  openTime : ℚ
  open' : ℚ
  high : ℚ
  low : ℚ
  close : ℚ
  volume : ℚ
  closeTime : ℚ
deriving DecidableEq, Repr

/-- `Signal.direction`. -/
inductive Direction where
  | LONG : Direction
  | SHORT : Direction
  | NO_TRADE : Direction
deriving DecidableEq, Repr

/-- The rationale strings pushed by `generateSignal`, one constructor
per string literal of the source, carrying the interpolated numbers:
`emaCrossover` = "Strategy: EMA Crossover Detected (20/50)",
`rsiConfirmTrend v` = "RSI is at v confirming trend",
`rsiConfirmDowntrend v` = "RSI is at v confirming downtrend",
`bbMeanReversion` = "Strategy: Bollinger Bands Mean Reversion",
`bbTouchLower p l` = "Price (p) touched lower band (l)",
`rsiOversold v` = "RSI is oversold (v)",
`bbTouchUpper p u` = "Price (p) touched upper band (u)",
`rsiOverbought v` = "RSI is overbought (v)",
`macdCrossover` = "Strategy: MACD Histogram Crossover",
`momentumPositive` = "Momentum shifted to positive",
`momentumNegative` = "Momentum shifted to negative",
`noStrongSignal s` = "No strong signal for s",
`indicators r spread` = "Indicators: RSI=r, BB Spread=spread%". -/
inductive RItem where
  | emaCrossover : RItem
  | rsiConfirmTrend : JsNumber → RItem
  | rsiConfirmDowntrend : JsNumber → RItem
  | bbMeanReversion : RItem
  | bbTouchLower : JsNumber → JsNumber → RItem
  | rsiOversold : JsNumber → RItem
  | bbTouchUpper : JsNumber → JsNumber → RItem
  | rsiOverbought : JsNumber → RItem
  | macdCrossover : RItem
  | momentumPositive : RItem
  | momentumNegative : RItem
  | noStrongSignal : String → RItem
  | indicators : JsNumber → JsNumber → RItem
deriving DecidableEq, Repr

/-- The `Signal` interface of `strategy.service.ts`; optional fields
are `Option`-valued and absent (`none`) by default. -/
structure Signal where
  symbol : String
  direction : Direction
  entryMin : Option JsNumber := none
  entryMax : Option JsNumber := none
  stopLoss : Option JsNumber := none
  takeProfit1 : Option JsNumber := none
  takeProfit2 : Option JsNumber := none
  takeProfit3 : Option JsNumber := none
  maxRiskPercent : Option JsNumber := none
  rationale : List RItem
deriving DecidableEq, Repr

/-- A thrown JavaScript exception; `typeError` models calling a method
(such as `.toFixed`) on `undefined`. -/
inductive JsError where
  | typeError : JsError
deriving DecidableEq, Repr

/-- `createLongSignal`: stop 5% below price, take-profit at 2:1
reward-to-risk, entry band price × [0.998, 1.002]. -/
def createLongSignal (symbol : String) (currentPrice : JsNumber)
    (rationale : List RItem) : Signal :=
  let stopLoss := jmul currentPrice (fin (mkRat 95 100))
  let riskAmount := jsub currentPrice stopLoss
  let takeProfit1 := jadd currentPrice (jmul riskAmount (fin 2))
  { symbol := symbol
    direction := .LONG
    entryMin := some (jmul currentPrice (fin (mkRat 998 1000)))
    entryMax := some (jmul currentPrice (fin (mkRat 1002 1000)))
    stopLoss := some stopLoss
    takeProfit1 := some takeProfit1
    maxRiskPercent := some (fin 5)
    rationale := rationale }

/-- `createShortSignal`: the mirror of `createLongSignal`. -/
def createShortSignal (symbol : String) (currentPrice : JsNumber)
    (rationale : List RItem) : Signal :=
  let stopLoss := jmul currentPrice (fin (mkRat 105 100))
  let riskAmount := jsub stopLoss currentPrice
  let takeProfit1 := jsub currentPrice (jmul riskAmount (fin 2))
  { symbol := symbol
    direction := .SHORT
    entryMin := some (jmul currentPrice (fin (mkRat 1002 1000)))
    entryMax := some (jmul currentPrice (fin (mkRat 998 1000)))
    stopLoss := some stopLoss
    takeProfit1 := some takeProfit1
    maxRiskPercent := some (fin 5)
    rationale := rationale }

/-- `generateSignal(symbol, ohlcv)`: three strategies in priority order
(EMA 20/50 crossover, Bollinger mean reversion, MACD histogram flip),
otherwise NO_TRADE.  The NO_TRADE branch interpolates
`currRSI.toFixed(2)` into its rationale; when `currRSI` is `undefined`
(fewer than 15 bars) that method call throws a TypeError, which the
`Except.error` branch models. -/
def generateSignal (symbol : String) (ohlcv : List OHLCV) :
    Except JsError Signal :=
  let closePrices := ohlcv.map fun c => fin c.close
  let currentPrice := pget closePrices ((closePrices.length : ℤ) - 1)
  let ema20 := calculateEMA closePrices 20
  let ema50 := calculateEMA closePrices 50
  let rsi := calculateRSI closePrices 14
  let currEMA20 := lastA ema20
  let currEMA50 := lastA ema50
  let prevEMA20 := prevA ema20
  let prevEMA50 := prevA ema50
  let currRSI := lastA rsi
  let bullishCross := oLe prevEMA20 prevEMA50 && oGt currEMA20 currEMA50
  let bearishCross := oGe prevEMA20 prevEMA50 && oLt currEMA20 currEMA50
  if bullishCross && oGt currRSI (some (fin 45)) && oLt currRSI (some (fin 70)) then
    .ok (createLongSignal symbol (toNum currentPrice)
      [.emaCrossover, .rsiConfirmTrend (toNum currRSI)])
  else if bearishCross && oLt currRSI (some (fin 55)) && oGt currRSI (some (fin 30)) then
    .ok (createShortSignal symbol (toNum currentPrice)
      [.emaCrossover, .rsiConfirmDowntrend (toNum currRSI)])
  else
    let bb := calculateBollingerBands closePrices 20 (fin 2)
    let currLowerBB := lastA bb.lower
    let currUpperBB := lastA bb.upper
    if oLe currentPrice currLowerBB && oLt currRSI (some (fin 35)) then
      .ok (createLongSignal symbol (toNum currentPrice)
        [.bbMeanReversion, .bbTouchLower (toNum currentPrice) (toNum currLowerBB),
         .rsiOversold (toNum currRSI)])
    else if oGe currentPrice currUpperBB && oGt currRSI (some (fin 65)) then
      .ok (createShortSignal symbol (toNum currentPrice)
        [.bbMeanReversion, .bbTouchUpper (toNum currentPrice) (toNum currUpperBB),
         .rsiOverbought (toNum currRSI)])
    else
      let macdData := calculateMACD closePrices 12 26 9
      let currHist := lastA macdData.histogram
      let prevHist := prevA macdData.histogram
      if oLt prevHist (some (fin 0)) && oGt currHist (some (fin 0)) &&
          oGt currRSI (some (fin 50)) then
        .ok (createLongSignal symbol (toNum currentPrice)
          [.macdCrossover, .momentumPositive])
      else if oGt prevHist (some (fin 0)) && oLt currHist (some (fin 0)) &&
          oLt currRSI (some (fin 50)) then
        .ok (createShortSignal symbol (toNum currentPrice)
          [.macdCrossover, .momentumNegative])
      else
        match currRSI with
        | none => .error .typeError
        | some r =>
          .ok { symbol := symbol
                direction := .NO_TRADE
                rationale := [.noStrongSignal symbol,
                  .indicators r
                    (jmul (jdiv (jsub (toNum currUpperBB) (toNum currLowerBB))
                      (toNum currentPrice)) (fin 100))] }

/-! ## Risk gate (`risk.service.ts`) -/

/-- The environment-derived configuration of `RiskService`, at its
documented defaults (`RISK_PER_TRADE=0.02`, `MAX_DAILY_LOSS=0.10`,
`STOP_LOSS_PERCENT=0.05`, `INITIAL_CAPITAL=100`). -/
structure RiskConfig where
  riskPerTrade : ℚ := mkRat 2 100
  maxDailyLoss : ℚ := mkRat 10 100
  stopLossPercent : ℚ := mkRat 5 100
  initialCapital : ℚ := 100
deriving DecidableEq, Repr

/-- The default configuration. -/
def defaultConfig : RiskConfig := {}

/-- Order / trade side. -/
inductive Side where
  | BUY : Side
  | SELL : Side
deriving DecidableEq, Repr

/-- Persisted trade status. -/
inductive TStatus where
  | OPEN : TStatus
  | CLOSED : TStatus
deriving DecidableEq, Repr

/-- A persisted `Trade` record as read back from the store, with the
fields the risk gate and the lifecycle manager consume.  `closed_at` is
a timestamp (integer instants ordered like `Date`);
`realized_pnl` is nullable. -/
structure TradeRec where
  symbol : String
  side : Side
  entry_price : ℚ
  quantity : ℚ
  stop_loss : ℚ
  take_profit : ℚ
  status : TStatus
  closed_at : ℤ
  realized_pnl : Option ℚ
deriving DecidableEq, Repr

/-- The outcome of reading the trade store: either the listed records
or a rejected promise (any persistence failure). -/
def StoreRead : Type := Except Unit (List TradeRec)

/-- The realized-PnL sum of the trades closed since local midnight,
`reduce((sum, t) => sum + (t.realized_pnl || 0), 0)` over
`status === 'CLOSED'` records with `closed_at >= today`. -/
def dailyPnlSum (trades : List TradeRec) (today : ℤ) : ℚ :=
  ((trades.filter fun t => t.status = TStatus.CLOSED).filter
      fun t => today ≤ t.closed_at).foldl
    (fun s t => qadd s (t.realized_pnl.getD 0)) 0

/-- `checkDailyLossLimit()`: true when today's realized-PnL sum is
strictly below `-(initialCapital * maxDailyLoss)`; a store error is
caught and yields false. -/
def checkDailyLossLimit (cfg : RiskConfig) (store : StoreRead) (today : ℤ) : Bool :=
  match store with
  | .error _ => false
  | .ok allTrades =>
    decide (dailyPnlSum allTrades today < qneg (qmul cfg.initialCapital cfg.maxDailyLoss))

/-- `hasOpenPosition(symbol)`: true when the store holds an OPEN trade
for the symbol; a store error is caught and yields false. -/
def hasOpenPosition (store : StoreRead) (symbol : String) : Bool :=
  match store with
  | .error _ => false
  | .ok trades =>
    decide (0 < (trades.filter fun t =>
      t.symbol = symbol ∧ t.status = TStatus.OPEN).length)

/-- `calculatePositionSize(equity, entryPrice, stopLoss)
  = equity * riskPerTrade / |entryPrice - stopLoss|`. -/
def calculatePositionSize (cfg : RiskConfig)
    (equity entryPrice stopLoss : JsNumber) : JsNumber :=
  jdiv (jmul equity (fin cfg.riskPerTrade)) (jabs (jsub entryPrice stopLoss))

/-- The rejection reasons of `validateTrade`, one constructor per
`reason` string of the source, carrying its interpolated values. -/
inductive RiskReason where
  | noTradeSignal : RiskReason
  | missingStopOrEntry : RiskReason
  | riskExceedsMax : JsNumber → RiskReason
  | dailyLossExceeded : RiskReason
  | alreadyOpenPosition : String → RiskReason
  | positionTooSmall : JsNumber → RiskReason
  | exceedsHalfEquity : JsNumber → RiskReason
deriving DecidableEq, Repr

/-- The `RiskValidation` result record. -/
structure RiskValidation where
  valid : Bool
  reason : Option RiskReason := none
  positionSize : Option JsNumber := none
deriving DecidableEq, Repr

/-- `validateTrade(signal, currentEquity)`: the seven sequential checks
of the source, in source order.  JavaScript truthiness governs checks 2
and 3 (`!signal.stopLoss`, `signal.maxRiskPercent && ... > 5`). -/
def validateTrade (cfg : RiskConfig) (signal : Signal) (currentEquity : ℚ)
    (store : StoreRead) (today : ℤ) : RiskValidation :=
  if signal.direction = .NO_TRADE then
    { valid := false, reason := some .noTradeSignal }
  else if !jtruthy signal.stopLoss || !jtruthy signal.entryMax then
    { valid := false, reason := some .missingStopOrEntry }
  else if jtruthy signal.maxRiskPercent && oGt signal.maxRiskPercent (some (fin 5)) then
    { valid := false, reason := some (.riskExceedsMax (toNum signal.maxRiskPercent)) }
  else if checkDailyLossLimit cfg store today then
    { valid := false, reason := some .dailyLossExceeded }
  else if hasOpenPosition store signal.symbol then
    { valid := false, reason := some (.alreadyOpenPosition signal.symbol) }
  else
    let positionSize := calculatePositionSize cfg (fin currentEquity)
      (toNum signal.entryMax) (toNum signal.stopLoss)
    let notionalValue := jmul positionSize (toNum signal.entryMax)
    if jlt notionalValue (fin 10) then
      { valid := false, reason := some (.positionTooSmall notionalValue) }
    else if jlt (jmul (fin currentEquity) (fin (mkRat 1 2))) notionalValue then
      { valid := false, reason := some (.exceedsHalfEquity notionalValue) }
    else
      { valid := true, positionSize := some positionSize }

/-! ## Trade execution and position close (`trading.service.ts`) -/

/-- A market-order request passed to the execution provider. -/
structure MarketOrderReq where
  symbol : String
  side : Side
  quantity : JsNumber
deriving DecidableEq, Repr

/-- A stop-loss-limit order request. -/
structure StopLossOrderReq where
  symbol : String
  side : Side
  quantity : JsNumber
  stopPrice : JsNumber
  limitPrice : JsNumber
deriving DecidableEq, Repr

/-- The `Trade` row created by `saveTrade`. -/
structure TradeRow where
  symbol : String
  side : Side
  entryPrice : JsNumber
  quantity : JsNumber
  stopLoss : JsNumber
  takeProfit : JsNumber
  status : TStatus
deriving DecidableEq, Repr

/-- The three persisted effects of one `executeTrade` call. -/
structure ExecutedTrade where
  marketOrder : MarketOrderReq
  trade : TradeRow
  stopLossOrder : StopLossOrderReq
deriving DecidableEq, Repr

/-- `executeTrade(signal, positionSize)`: places a market order with
side `'BUY'` (a string literal, independent of `signal.direction`),
saves the trade with side `'BUY'` and status OPEN, and places a
protective `'SELL'` stop-loss order with limit 0.5% below the stop. -/
def executeTrade (signal : Signal) (positionSize currentPrice : JsNumber) :
    ExecutedTrade :=
  { marketOrder := { symbol := signal.symbol, side := .BUY, quantity := positionSize }
    trade :=
      { symbol := signal.symbol
        side := .BUY
        entryPrice := currentPrice
        quantity := positionSize
        stopLoss := toNum signal.stopLoss
        takeProfit := toNum signal.takeProfit1
        status := .OPEN }
    stopLossOrder :=
      { symbol := signal.symbol
        side := .SELL
        quantity := positionSize
        stopPrice := toNum signal.stopLoss
        limitPrice := jmul (toNum signal.stopLoss) (fin (mkRat 995 1000)) } }

/-- The row update written by `closePosition` at the OPEN→CLOSED
transition. -/
structure ClosedUpdate where
  status : TStatus
  exit_price : ℚ
  realized_pnl : ℚ
  realized_pnl_percent : ℚ
  closed_at : ℤ
deriving DecidableEq, Repr

/-- `closePosition(trade, exitPrice, reason)` (backend variant): after
the SELL market order, records
`realizedPnl = (exitPrice - entry_price) * quantity` and
`realizedPnlPercent = ((exitPrice - entry_price) / entry_price) * 100`
with status CLOSED.  Note: no factor depending on `trade.side` appears
in either formula. -/
def closePosition (trade : TradeRec) (exitPrice : ℚ) (now : ℤ) : ClosedUpdate :=
  { status := .CLOSED
    exit_price := exitPrice
    realized_pnl := qmul (qsub exitPrice trade.entry_price) trade.quantity
    realized_pnl_percent := qmul (qdiv (qsub exitPrice trade.entry_price) trade.entry_price) 100
    closed_at := now }

/-- The PnL recorded by the amplify `manageOpenPositions` close path:
`pnl = (exitPrice - entry_price) * quantity`, likewise with no
side-dependent factor. -/
def manageOpenPositionsPnl (trade : TradeRec) (exitPrice : ℚ) : ℚ :=
  qmul (qsub exitPrice trade.entry_price) trade.quantity

/-- The PnL percent recorded by the amplify close path:
`(pnl / (entry_price * quantity)) * 100`. -/
def manageOpenPositionsPnlPercent (trade : TradeRec) (exitPrice : ℚ) : ℚ :=
  qmul (qdiv (manageOpenPositionsPnl trade exitPrice)
    (qmul trade.entry_price trade.quantity)) 100

/-- Modelled from the spec (claim C2's stated formula, for comparison
with the code): `(exitPrice − entryPrice) × quantity × (+1 for
BUY/LONG, −1 for SELL/SHORT)`. -/
def specRealizedPnl (side : Side) (entryPrice quantity exitPrice : ℚ) : ℚ :=
  (exitPrice - entryPrice) * quantity * (if side = .BUY then 1 else -1)

end BinanceBot

deriving instance DecidableEq for Except

set_option maxRecDepth 8000

namespace BinanceBot

open JsNumber

/-! ## Concrete fixtures -/

/-- A price bar with the given close (the strategy engine reads only
`close`). -/
def mkBar (c : ℚ) : OHLCV := ⟨0, 0, 0, 0, c, 0, 0⟩

/-- Twenty bars: eighteen at 100 followed by two at 40.  The last close
sits below the lower Bollinger band (mean 94, population std 18, lower
band 58) with 14-period RSI 0, so the mean-reversion strategy fires. -/
def bars20 : List OHLCV := List.replicate 18 (mkBar 100) ++ [mkBar 40, mkBar 40]

/-- A well-formed LONG signal: entry 50000, stop 47500, declared risk
5%. -/
def demoSignal : Signal :=
  { symbol := "BTCUSDT", direction := .LONG, entryMax := some (fin 50000),
    stopLoss := some (fin 47500), maxRiskPercent := some (fin 5), rationale := [] }

/-- A trade closed at timestamp 5 with realized PnL −11. -/
def lostTrade : TradeRec :=
  { symbol := "ETHUSDT", side := .BUY, entry_price := 100, quantity := 1,
    stop_loss := 90, take_profit := 120, status := .CLOSED, closed_at := 5,
    realized_pnl := some (-11) }

/-- An OPEN BTCUSDT trade. -/
def openTrade : TradeRec :=
  { symbol := "BTCUSDT", side := .BUY, entry_price := 100, quantity := 1,
    stop_loss := 90, take_profit := 120, status := .OPEN, closed_at := 0,
    realized_pnl := none }

/-- An open BUY/LONG position: entry 100, quantity 2. -/
def longTrade : TradeRec :=
  { symbol := "BTCUSDT", side := .BUY, entry_price := 100, quantity := 2,
    stop_loss := 90, take_profit := 120, status := .OPEN, closed_at := 0,
    realized_pnl := none }

/-- An open SELL position: entry 100, quantity 2. -/
def sellTrade : TradeRec :=
  { symbol := "BTCUSDT", side := .SELL, entry_price := 100, quantity := 2,
    stop_loss := 110, take_profit := 80, status := .OPEN, closed_at := 0,
    realized_pnl := none }

/-! ## Claims -/

/-- C7: every trade `executeTrade` places and persists has side BUY
(the market order and the saved trade row), with a protective SELL
stop-loss order — for every signal, SHORT direction included. -/
theorem c7_executeTrade_buy_only (signal : Signal)
    (positionSize currentPrice : JsNumber) :
    (executeTrade signal positionSize currentPrice).marketOrder.side = Side.BUY ∧
    (executeTrade signal positionSize currentPrice).trade.side = Side.BUY ∧
    (executeTrade signal positionSize currentPrice).trade.status = TStatus.OPEN ∧
    (executeTrade signal positionSize currentPrice).stopLossOrder.side = Side.SELL :=
  ⟨rfl, rfl, rfl, rfl⟩

/-- C2 counterexample: for a SELL position with entry 100, quantity 2,
exit 110, the close path records +20 while the claimed side-signed
formula gives −20 — `closePosition` applies no side factor. -/
theorem c2_counterexample :
    (closePosition sellTrade 110 7).realized_pnl = 20 ∧
    specRealizedPnl Side.SELL sellTrade.entry_price sellTrade.quantity 110 = -20 ∧
    (closePosition sellTrade 110 7).realized_pnl ≠
      specRealizedPnl Side.SELL sellTrade.entry_price sellTrade.quantity 110 := by
  have h1 : (closePosition sellTrade 110 7).realized_pnl = 20 := by decide
  have h2 : specRealizedPnl Side.SELL sellTrade.entry_price sellTrade.quantity 110
      = -20 := by
    simp only [specRealizedPnl]
    rw [if_neg (by decide : ¬(Side.SELL = Side.BUY))]
    norm_num [sellTrade]
  refine ⟨h1, h2, ?_⟩
  rw [h1, h2]
  norm_num

/-- C2 amended: the close transition records
`realizedPnl = (exitPrice − entryPrice) × quantity` with no
side-dependent factor, so it matches the claimed side-signed formula
exactly for BUY/LONG positions; `realizedPnlPercent` is the percentage
of the entry price; the amplify close path computes the same PnL. -/
theorem c2_amended_close_pnl (trade : TradeRec) (exitPrice : ℚ) (now : ℤ)
    (hside : trade.side = Side.BUY) :
    (closePosition trade exitPrice now).realized_pnl =
      specRealizedPnl trade.side trade.entry_price trade.quantity exitPrice ∧
    (closePosition trade exitPrice now).realized_pnl =
      (exitPrice - trade.entry_price) * trade.quantity ∧
    (closePosition trade exitPrice now).realized_pnl_percent =
      (exitPrice - trade.entry_price) / trade.entry_price * 100 ∧
    (closePosition trade exitPrice now).status = TStatus.CLOSED ∧
    manageOpenPositionsPnl trade exitPrice =
      specRealizedPnl trade.side trade.entry_price trade.quantity exitPrice := by
  simp [closePosition, specRealizedPnl, manageOpenPositionsPnl, hside,
    qmul_eq, qsub_eq, qdiv_eq]

/-- C2 witness: the BUY example — entry 100, quantity 2, exit 110 —
records realizedPnl 20 and realizedPnlPercent 10, matching the claimed
formula. -/
theorem c2_witness :
    longTrade.side = Side.BUY ∧
    (closePosition longTrade 110 7).realized_pnl =
      specRealizedPnl longTrade.side longTrade.entry_price longTrade.quantity 110 ∧
    (closePosition longTrade 110 7).realized_pnl = 20 ∧
    (closePosition longTrade 110 7).realized_pnl_percent = 10 :=
  ⟨rfl, (c2_amended_close_pnl longTrade 110 7 rfl).1, by decide, by decide⟩

/-- C4 counterexample: a NO_TRADE signal on a symbol with an existing
OPEN position is rejected with the no-trade reason, not the
already-open-position reason — the open-position check is not reached
"regardless of the signal's direction". -/
theorem c4_counterexample :
    hasOpenPosition (Except.ok [openTrade]) "BTCUSDT" = true ∧
    (validateTrade defaultConfig { demoSignal with direction := .NO_TRADE } 100
      (Except.ok [openTrade]) 0).reason = some RiskReason.noTradeSignal ∧
    RiskReason.noTradeSignal ≠ RiskReason.alreadyOpenPosition "BTCUSDT" := by
  refine ⟨by decide, by decide, by decide⟩

/-- C4 amended: whenever the store holds an OPEN position for the
signal's symbol, `validateTrade` returns valid=false (so the gate never
validates a second trade for that symbol); the reason is the
already-open-position reason when the higher-priority checks (direction,
levels, risk ceiling, daily breaker) all pass. -/
theorem c4_amended_open_position_rejected (cfg : RiskConfig) (signal : Signal)
    (equity : ℚ) (store : StoreRead) (today : ℤ)
    (hopen : hasOpenPosition store signal.symbol = true) :
    (validateTrade cfg signal equity store today).valid = false ∧
    (signal.direction ≠ Direction.NO_TRADE →
      jtruthy signal.stopLoss = true →
      jtruthy signal.entryMax = true →
      (jtruthy signal.maxRiskPercent && oGt signal.maxRiskPercent (some (fin 5))) = false →
      checkDailyLossLimit cfg store today = false →
      (validateTrade cfg signal equity store today).reason =
        some (RiskReason.alreadyOpenPosition signal.symbol)) := by
  unfold validateTrade
  split_ifs with h1 h2 h3 h4
  · exact ⟨rfl, fun hdir _ _ _ _ => absurd h1 hdir⟩
  · refine ⟨rfl, fun _ hstop hentry _ _ => ?_⟩
    rw [hstop, hentry] at h2
    simp at h2
  · refine ⟨rfl, fun _ _ _ hrisk _ => ?_⟩
    exact absurd h3 (by simp [hrisk])
  · refine ⟨rfl, fun _ _ _ _ hdaily => ?_⟩
    exact absurd h4 (by simp [hdaily])
  · exact ⟨rfl, fun _ _ _ _ _ => rfl⟩

/-- C4 witness: the amended statement at a concrete LONG signal with an
open BTCUSDT position. -/
theorem c4_witness :
    (validateTrade defaultConfig demoSignal 100 (Except.ok [openTrade]) 0).valid = false ∧
    (validateTrade defaultConfig demoSignal 100 (Except.ok [openTrade]) 0).reason =
      some (RiskReason.alreadyOpenPosition "BTCUSDT") :=
  ⟨(c4_amended_open_position_rejected defaultConfig demoSignal 100
      (Except.ok [openTrade]) 0 (by decide)).1,
   (c4_amended_open_position_rejected defaultConfig demoSignal 100
      (Except.ok [openTrade]) 0 (by decide)).2
    (by decide) (by decide) (by decide) (by decide) (by decide)⟩

/-- C10: when the trade-store read fails, `checkDailyLossLimit` and
`hasOpenPosition` both return false (fail open); `validateTrade` then
behaves exactly as over an empty store, and a persistence failure never
by itself causes a rejection — a well-formed signal still validates. -/
theorem c10_fail_open (cfg : RiskConfig) (signal : Signal) (equity : ℚ)
    (today : ℤ) (h : 0 ≤ cfg.initialCapital * cfg.maxDailyLoss) :
    checkDailyLossLimit cfg (Except.error ()) today = false ∧
    hasOpenPosition (Except.error ()) signal.symbol = false ∧
    validateTrade cfg signal equity (Except.error ()) today =
      validateTrade cfg signal equity (Except.ok []) today ∧
    (validateTrade defaultConfig demoSignal 100 (Except.error ()) 0).valid = true := by
  have hd : checkDailyLossLimit cfg (Except.ok []) today = false := by
    simp only [checkDailyLossLimit, dailyPnlSum, List.filter_nil, List.foldl_nil,
      decide_eq_false_iff_not, not_lt, qneg_eq, qmul_eq]
    linarith
  have ho : hasOpenPosition (Except.ok ([] : List TradeRec)) signal.symbol = false := rfl
  refine ⟨rfl, rfl, ?_, by decide⟩
  unfold validateTrade
  rw [show checkDailyLossLimit cfg (Except.error ()) today = false from rfl, hd,
    show hasOpenPosition (Except.error ()) signal.symbol = false from rfl, ho]

/-- The default daily-loss threshold evaluates to −10. -/
theorem defaultMaxLossValue :
    -(defaultConfig.initialCapital * defaultConfig.maxDailyLoss) = (-10 : ℚ) := by
  norm_num [defaultConfig, Rat.mkRat_eq_div]

/-- C3 counterexample: with today's realized-PnL sum at −11 (below the
default −10 threshold), a directional signal missing its stop-loss is
rejected with the missing-stop reason, not a reason mentioning the
daily loss limit — the claim's "for every directional signal" fails. -/
theorem c3_counterexample :
    dailyPnlSum [lostTrade] 0 = -11 ∧
    dailyPnlSum [lostTrade] 0 <
      -(defaultConfig.initialCapital * defaultConfig.maxDailyLoss) ∧
    ({ demoSignal with stopLoss := none } : Signal).direction ≠ Direction.NO_TRADE ∧
    (validateTrade defaultConfig { demoSignal with stopLoss := none } 100
      (Except.ok [lostTrade]) 0).reason = some RiskReason.missingStopOrEntry ∧
    RiskReason.missingStopOrEntry ≠ RiskReason.dailyLossExceeded := by
  refine ⟨by decide, ?_, by decide, by decide, by decide⟩
  rw [defaultMaxLossValue]
  decide

/-- C3 amended: when the realized-PnL sum over trades closed since
local midnight is strictly below −(initialCapital × maxDailyLoss),
every directional signal is rejected (valid=false); the reason is the
daily-loss reason whenever the signal also carries truthy stop-loss and
entry levels and does not trip the 5% risk ceiling (those
higher-priority checks otherwise report their own reasons first). -/
theorem c3_amended_daily_breaker (signal : Signal) (equity : ℚ)
    (trades : List TradeRec) (today : ℤ)
    (hdir : signal.direction ≠ Direction.NO_TRADE)
    (hloss : dailyPnlSum trades today <
      -(defaultConfig.initialCapital * defaultConfig.maxDailyLoss)) :
    (validateTrade defaultConfig signal equity (Except.ok trades) today).valid = false ∧
    (jtruthy signal.stopLoss = true →
      jtruthy signal.entryMax = true →
      (jtruthy signal.maxRiskPercent && oGt signal.maxRiskPercent (some (fin 5))) = false →
      (validateTrade defaultConfig signal equity (Except.ok trades) today).reason =
        some RiskReason.dailyLossExceeded) := by
  have hcheck : checkDailyLossLimit defaultConfig (Except.ok trades) today = true := by
    simp only [checkDailyLossLimit, decide_eq_true_eq, qneg_eq, qmul_eq]
    exact hloss
  unfold validateTrade
  split_ifs with h1 h2 h3
  · exact absurd h1 hdir
  · refine ⟨rfl, fun hstop hentry _ => ?_⟩
    rw [hstop, hentry] at h2
    simp at h2
  · exact ⟨rfl, fun _ _ hrisk => absurd h3 (by simp [hrisk])⟩
  · exact ⟨rfl, fun _ _ _ => rfl⟩

/-- C3 witness: the spec's own example — closed-today sum −11 under the
defaults — rejects the next well-formed LONG signal with the daily-loss
reason. -/
theorem c3_witness :
    (validateTrade defaultConfig demoSignal 100 (Except.ok [lostTrade]) 0).valid = false ∧
    (validateTrade defaultConfig demoSignal 100 (Except.ok [lostTrade]) 0).reason =
      some RiskReason.dailyLossExceeded :=
  have hloss : dailyPnlSum [lostTrade] 0 <
      -(defaultConfig.initialCapital * defaultConfig.maxDailyLoss) := by
    rw [defaultMaxLossValue]
    decide
  ⟨(c3_amended_daily_breaker demoSignal 100 [lostTrade] 0 (by decide) hloss).1,
   (c3_amended_daily_breaker demoSignal 100 [lostTrade] 0 (by decide) hloss).2
     (by decide) (by decide) (by decide)⟩

/-- C5: a directional signal that passes every rejection check is
validated with
`positionSize = equity × riskPerTrade / |entryPrice − stopLoss|`,
the entry reference price being the signal's `entryMax` and
riskPerTrade defaulting to 0.02. -/
theorem c5_position_sizing (signal : Signal) (equity e s : ℚ)
    (store : StoreRead) (today : ℤ)
    (hdir : signal.direction ≠ Direction.NO_TRADE)
    (hentry : signal.entryMax = some (fin e)) (hstop : signal.stopLoss = some (fin s))
    (he : e ≠ 0) (hs : s ≠ 0) (hes : e ≠ s)
    (hrisk : (jtruthy signal.maxRiskPercent && oGt signal.maxRiskPercent (some (fin 5))) = false)
    (hdaily : checkDailyLossLimit defaultConfig store today = false)
    (hopen : hasOpenPosition store signal.symbol = false)
    (hmin : jlt (jmul (calculatePositionSize defaultConfig (fin equity) (fin e) (fin s))
      (fin e)) (fin 10) = false)
    (hhalf : jlt (jmul (fin equity) (fin (mkRat 1 2)))
      (jmul (calculatePositionSize defaultConfig (fin equity) (fin e) (fin s))
        (fin e)) = false) :
    (validateTrade defaultConfig signal equity store today).valid = true ∧
    (validateTrade defaultConfig signal equity store today).positionSize =
      some (fin (equity * defaultConfig.riskPerTrade / |e - s|)) := by
  have hsize : calculatePositionSize defaultConfig (fin equity) (fin e) (fin s) =
      fin (equity * defaultConfig.riskPerTrade / |e - s|) := by
    have habs : qabs (qadd e (qneg s)) ≠ 0 := by
      rw [qabs_eq, qadd_eq, qneg_eq, ← sub_eq_add_neg]
      simpa using sub_ne_zero.mpr hes
    simp only [calculatePositionSize, jsub, jneg, jadd, jmul, jabs, jdiv, if_neg habs]
    rw [qdiv_eq, qmul_eq, qabs_eq, qadd_eq, qneg_eq, ← sub_eq_add_neg]
  unfold validateTrade
  rw [if_neg hdir, hentry, hstop]
  rw [show (!jtruthy (some (fin s)) || !jtruthy (some (fin e))) = false by
      simp [jtruthy, hs, he]]
  rw [show (jtruthy signal.maxRiskPercent &&
      oGt signal.maxRiskPercent (some (fin 5))) = false from hrisk]
  rw [hdaily, hopen]
  simp only [Bool.false_eq_true, if_false, toNum]
  rw [if_neg (by rw [hsize] at hmin ⊢; exact by simp [hmin]),
    if_neg (by rw [hsize] at hhalf ⊢; exact by simp [hhalf])]
  exact ⟨rfl, by rw [hsize]⟩

/-- C5 witness: equity 100, entry 50000, stop 47500 pass the gate with
positionSize (100 × 0.02)/2500 = 0.0008. -/
theorem c5_witness :
    (validateTrade defaultConfig demoSignal 100 (Except.ok []) 0).valid = true ∧
    (validateTrade defaultConfig demoSignal 100 (Except.ok []) 0).positionSize =
      some (fin (100 * defaultConfig.riskPerTrade / |(50000 : ℚ) - 47500|)) ∧
    (validateTrade defaultConfig demoSignal 100 (Except.ok []) 0).positionSize =
      some (fin (mkRat 1 1250)) :=
  ⟨(c5_position_sizing demoSignal 100 50000 47500 (Except.ok []) 0 (by decide) rfl rfl
      (by decide) (by decide) (by decide) (by decide) (by decide) (by decide)
      (by decide) (by decide)).1,
   (c5_position_sizing demoSignal 100 50000 47500 (Except.ok []) 0 (by decide) rfl rfl
      (by decide) (by decide) (by decide) (by decide) (by decide) (by decide)
      (by decide) (by decide)).2,
   by decide⟩

/-- C6: `validateTrade` evaluates its rejection conditions in the fixed
priority order (1) NO_TRADE direction, (2) falsy stopLoss or entryMax,
(3) truthy maxRiskPercent above 5, (4) daily-loss breaker, (5) open
position for the symbol, (6) notional below the 10-unit floor,
(7) notional above half the equity: a rejection with condition k's
reason implies condition k holds and conditions 1..k−1 do not, and an
accepted trade satisfies none of the seven. -/
theorem c6_rejection_priority (cfg : RiskConfig) (signal : Signal) (equity : ℚ)
    (store : StoreRead) (today : ℤ) :
    ((validateTrade cfg signal equity store today).reason = some RiskReason.noTradeSignal →
      signal.direction = Direction.NO_TRADE) ∧
    ((validateTrade cfg signal equity store today).reason = some RiskReason.missingStopOrEntry →
      (!jtruthy signal.stopLoss || !jtruthy signal.entryMax) = true ∧
      ¬signal.direction = Direction.NO_TRADE) ∧
    (∀ v, (validateTrade cfg signal equity store today).reason =
        some (RiskReason.riskExceedsMax v) →
      (jtruthy signal.maxRiskPercent && oGt signal.maxRiskPercent (some (fin 5))) = true ∧
      ¬signal.direction = Direction.NO_TRADE ∧
      ¬(!jtruthy signal.stopLoss || !jtruthy signal.entryMax) = true) ∧
    ((validateTrade cfg signal equity store today).reason = some RiskReason.dailyLossExceeded →
      checkDailyLossLimit cfg store today = true ∧
      ¬signal.direction = Direction.NO_TRADE ∧
      ¬(!jtruthy signal.stopLoss || !jtruthy signal.entryMax) = true ∧
      ¬(jtruthy signal.maxRiskPercent && oGt signal.maxRiskPercent (some (fin 5))) = true) ∧
    (∀ sym, (validateTrade cfg signal equity store today).reason =
        some (RiskReason.alreadyOpenPosition sym) →
      hasOpenPosition store signal.symbol = true ∧
      ¬signal.direction = Direction.NO_TRADE ∧
      ¬(!jtruthy signal.stopLoss || !jtruthy signal.entryMax) = true ∧
      ¬(jtruthy signal.maxRiskPercent && oGt signal.maxRiskPercent (some (fin 5))) = true ∧
      ¬checkDailyLossLimit cfg store today = true) ∧
    (∀ v, (validateTrade cfg signal equity store today).reason =
        some (RiskReason.positionTooSmall v) →
      jlt (jmul (calculatePositionSize cfg (fin equity) (toNum signal.entryMax)
          (toNum signal.stopLoss)) (toNum signal.entryMax)) (fin 10) = true ∧
      ¬signal.direction = Direction.NO_TRADE ∧
      ¬(!jtruthy signal.stopLoss || !jtruthy signal.entryMax) = true ∧
      ¬(jtruthy signal.maxRiskPercent && oGt signal.maxRiskPercent (some (fin 5))) = true ∧
      ¬checkDailyLossLimit cfg store today = true ∧
      ¬hasOpenPosition store signal.symbol = true) ∧
    (∀ v, (validateTrade cfg signal equity store today).reason =
        some (RiskReason.exceedsHalfEquity v) →
      jlt (jmul (fin equity) (fin (mkRat 1 2)))
        (jmul (calculatePositionSize cfg (fin equity) (toNum signal.entryMax)
          (toNum signal.stopLoss)) (toNum signal.entryMax)) = true ∧
      ¬signal.direction = Direction.NO_TRADE ∧
      ¬(!jtruthy signal.stopLoss || !jtruthy signal.entryMax) = true ∧
      ¬(jtruthy signal.maxRiskPercent && oGt signal.maxRiskPercent (some (fin 5))) = true ∧
      ¬checkDailyLossLimit cfg store today = true ∧
      ¬hasOpenPosition store signal.symbol = true ∧
      ¬jlt (jmul (calculatePositionSize cfg (fin equity) (toNum signal.entryMax)
          (toNum signal.stopLoss)) (toNum signal.entryMax)) (fin 10) = true) ∧
    ((validateTrade cfg signal equity store today).valid = true →
      ¬signal.direction = Direction.NO_TRADE ∧
      ¬(!jtruthy signal.stopLoss || !jtruthy signal.entryMax) = true ∧
      ¬(jtruthy signal.maxRiskPercent && oGt signal.maxRiskPercent (some (fin 5))) = true ∧
      ¬checkDailyLossLimit cfg store today = true ∧
      ¬hasOpenPosition store signal.symbol = true ∧
      ¬jlt (jmul (calculatePositionSize cfg (fin equity) (toNum signal.entryMax)
          (toNum signal.stopLoss)) (toNum signal.entryMax)) (fin 10) = true ∧
      ¬jlt (jmul (fin equity) (fin (mkRat 1 2)))
        (jmul (calculatePositionSize cfg (fin equity) (toNum signal.entryMax)
          (toNum signal.stopLoss)) (toNum signal.entryMax)) = true) := by
  simp only [validateTrade]
  split_ifs with h1 h2 h3 h4 h5 h6 h7 <;>
    refine ⟨?_, ?_, ?_, ?_, ?_, ?_, ?_, ?_⟩ <;>
    intros <;> simp_all

/-- C6 witness: the priority statement applied at a LONG signal whose
symbol has an open position — the already-open rejection implies the
open-position condition holds and conditions 1–4 all fail. -/
theorem c6_witness :
    hasOpenPosition (Except.ok [openTrade]) demoSignal.symbol = true ∧
    ¬demoSignal.direction = Direction.NO_TRADE ∧
    ¬(!jtruthy demoSignal.stopLoss || !jtruthy demoSignal.entryMax) = true ∧
    ¬(jtruthy demoSignal.maxRiskPercent && oGt demoSignal.maxRiskPercent (some (fin 5))) = true ∧
    ¬checkDailyLossLimit defaultConfig (Except.ok [openTrade]) 0 = true :=
  (c6_rejection_priority defaultConfig demoSignal 100
    (Except.ok [openTrade]) 0).2.2.2.2.1 "BTCUSDT" (by decide)

/-! ## Claim C1: data-insufficiency behavior of `generateSignal` -/

theorem calculateEMA_nil {prices : List JsNumber} {period : ℕ}
    (h : prices.length < period) : calculateEMA prices period = [] := by
  simp [calculateEMA, h]

theorem calculateRSI_nil {prices : List JsNumber} {period : ℕ}
    (h : prices.length < period + 1) : calculateRSI prices period = [] := by
  simp [calculateRSI, h]

theorem calculateSMA_nil {prices : List JsNumber} {period : ℕ}
    (h : prices.length < period) : calculateSMA prices period = [] := by
  simp [calculateSMA, h]

theorem agetI_nil (i : ℤ) : agetI [] i = none := by
  simp [agetI]

theorem agetI_map_range (n : ℕ) (f : ℕ → Option JsNumber) (i : ℤ) :
    agetI ((List.range n).map f) i =
      if 0 ≤ i ∧ i.toNat < n then f i.toNat else none := by
  unfold agetI
  by_cases h : 0 ≤ i ∧ i.toNat < ((List.range n).map f).length
  · rw [dif_pos h, if_pos (by simpa using h)]
    simp [List.get_eq_getElem]
  · rw [dif_neg h, if_neg (by simpa using h)]

theorem jlt_nan_left (y : JsNumber) : jlt nan y = false := by cases y <;> rfl

theorem jlt_nan_right (x : JsNumber) : jlt x nan = false := by cases x <;> rfl

theorem jle_nan_left (y : JsNumber) : jle nan y = false := by cases y <;> rfl

theorem jle_nan_right (x : JsNumber) : jle x nan = false := by cases x <;> rfl

theorem oLe_none_left (b : Option JsNumber) : oLe none b = false := by
  simp [oLe, toNum, jle_nan_left]

theorem oLe_none_right (a : Option JsNumber) : oLe a none = false := by
  simp [oLe, toNum, jle_nan_right]

theorem oLt_none_left (b : Option JsNumber) : oLt none b = false := by
  simp [oLt, toNum, jlt_nan_left]

theorem oLt_none_right (a : Option JsNumber) : oLt a none = false := by
  simp [oLt, toNum, jlt_nan_right]

theorem oGt_none_left (b : Option JsNumber) : oGt none b = false := by
  simp [oGt, toNum, jlt_nan_right]

theorem oGt_none_right (a : Option JsNumber) : oGt a none = false := by
  simp [oGt, toNum, jlt_nan_left]

theorem oGe_none_left (b : Option JsNumber) : oGe none b = false := by
  simp [oGe, toNum, jle_nan_right]

theorem oGe_none_right (a : Option JsNumber) : oGe a none = false := by
  simp [oGe, toNum, jle_nan_left]

theorem reduceOption_replicate_none (n : ℕ) :
    (List.replicate n (none : Option JsNumber)).reduceOption = [] := by
  induction n with
  | zero => rfl
  | succ k ih => simpa [List.replicate_succ, List.reduceOption_cons_of_none] using ih

/-- C1 counterexample: a 20-bar series (fewer than the claimed 50-bar
minimum) on which `generateSignal` returns a directional LONG signal —
the Bollinger mean-reversion branch needs only 20 bars — instead of the
claimed insufficient-data NO_TRADE. -/
theorem c1_counterexample :
    bars20.length < 50 ∧
    Except.map Signal.direction (generateSignal "BTCUSDT" bars20) =
      Except.ok Direction.LONG ∧
    Direction.LONG ≠ Direction.NO_TRADE := by
  refine ⟨by decide, by decide, by decide⟩

theorem agetI_replicate_none (n : ℕ) (i : ℤ) :
    agetI (List.replicate n none) i = none := by
  unfold agetI
  split
  · simp [List.get_eq_getElem]
  · rfl

theorem lastA_nil : lastA [] = none := agetI_nil _

theorem prevA_nil : prevA [] = none := agetI_nil _

theorem lastA_replicate_none (n : ℕ) : lastA (List.replicate n none) = none := by
  simp [lastA, agetI_replicate_none]

theorem prevA_replicate_none (n : ℕ) : prevA (List.replicate n none) = none := by
  simp [prevA, agetI_replicate_none]

/-- C1 amended: `generateSignal` handles no data-insufficiency case:
with fewer than 15 bars (the 14-period RSI warm-up) the NO_TRADE branch
calls `.toFixed` on an `undefined` RSI value and throws a TypeError
that propagates to the caller; no insufficient-data NO_TRADE rationale
exists (and with 20–49 bars a directional signal can still fire, per
the counterexample). -/
theorem c1_amended_throws (symbol : String) (ohlcv : List OHLCV)
    (h : ohlcv.length < 15) :
    generateSignal symbol ohlcv = Except.error JsError.typeError := by
  have hn : (ohlcv.map fun c => fin c.close).length < 15 := by simpa using h
  have hrsi : calculateRSI (ohlcv.map fun c => fin c.close) 14 = [] :=
    calculateRSI_nil (by omega)
  have hema20 : calculateEMA (ohlcv.map fun c => fin c.close) 20 = [] :=
    calculateEMA_nil (by omega)
  have hema50 : calculateEMA (ohlcv.map fun c => fin c.close) 50 = [] :=
    calculateEMA_nil (by omega)
  have hema26 : calculateEMA (ohlcv.map fun c => fin c.close) 26 = [] :=
    calculateEMA_nil (by omega)
  have hsma : calculateSMA (ohlcv.map fun c => fin c.close) 20 = [] :=
    calculateSMA_nil (by omega)
  have hmacd : ((List.range (ohlcv.map fun c => fin c.close).length).map fun (i : ℕ) =>
      match agetI (calculateEMA (ohlcv.map fun c => fin c.close) 12) (i : ℤ),
        agetI (calculateEMA (ohlcv.map fun c => fin c.close) 26) (i : ℤ) with
      | some a, some b => some (jsub a b)
      | _, _ => none) =
      List.replicate (ohlcv.map fun c => fin c.close).length none := by
    rw [List.eq_replicate_iff]
    refine ⟨by rw [List.length_map, List.length_range], fun x hx => ?_⟩
    obtain ⟨i, _, rfl⟩ := List.mem_map.mp hx
    rw [hema26, agetI_nil]
    cases agetI (calculateEMA (ohlcv.map fun c => fin c.close) 12) (i : ℤ) <;> rfl
  have hlower : (calculateBollingerBands (ohlcv.map fun c => fin c.close) 20
      (fin 2)).lower = List.replicate (ohlcv.map fun c => fin c.close).length none := by
    simp only [calculateBollingerBands]
    rw [List.eq_replicate_iff]
    refine ⟨by rw [List.length_map, List.length_range], fun x hx => ?_⟩
    obtain ⟨i, _, rfl⟩ := List.mem_map.mp hx
    rw [hsma, agetI_nil]
  have hupper : (calculateBollingerBands (ohlcv.map fun c => fin c.close) 20
      (fin 2)).upper = List.replicate (ohlcv.map fun c => fin c.close).length none := by
    simp only [calculateBollingerBands]
    rw [List.eq_replicate_iff]
    refine ⟨by rw [List.length_map, List.length_range], fun x hx => ?_⟩
    obtain ⟨i, _, rfl⟩ := List.mem_map.mp hx
    rw [hsma, agetI_nil]
  have hhist : (calculateMACD (ohlcv.map fun c => fin c.close) 12 26 9).histogram =
      List.replicate (ohlcv.map fun c => fin c.close).length none := by
    simp only [calculateMACD]
    rw [hmacd, reduceOption_replicate_none,
      show calculateEMA ([] : List JsNumber) 9 = [] from calculateEMA_nil (by simp)]
    simp only [List.length_nil, Nat.sub_zero, Nat.add_zero]
    rw [List.eq_replicate_iff]
    refine ⟨by rw [List.length_map, List.length_range], fun x hx => ?_⟩
    obtain ⟨i, hi, rfl⟩ := List.mem_map.mp hx
    rw [if_pos (List.mem_range.mp hi)]
  simp only [generateSignal, hrsi, hema20, hema50, hlower, hupper, hhist,
    lastA_nil, prevA_nil, lastA_replicate_none, prevA_replicate_none,
    oLe_none_left, oLe_none_right, oLt_none_left, oLt_none_right,
    oGt_none_left, oGt_none_right, oGe_none_left, oGe_none_right,
    Bool.false_and, Bool.and_false]
  simp

/-- C1 witness: a 3-bar input makes `generateSignal` throw. -/
theorem c1_witness :
    (List.replicate 3 (mkBar 100)).length < 15 ∧
    generateSignal "BTCUSDT" (List.replicate 3 (mkBar 100)) =
      Except.error JsError.typeError :=
  ⟨by decide, c1_amended_throws "BTCUSDT" (List.replicate 3 (mkBar 100)) (by decide)⟩

/-! ## Claim C8: RSI range and division-by-zero behavior -/

theorem jadd_fin (a b : ℚ) : jadd (fin a) (fin b) = fin (qadd a b) := rfl

theorem jneg_fin (a : ℚ) : jneg (fin a) = fin (qneg a) := rfl

theorem jsub_fin (a b : ℚ) : jsub (fin a) (fin b) = fin (qadd a (qneg b)) := rfl

theorem jmul_fin (a b : ℚ) : jmul (fin a) (fin b) = fin (qmul a b) := rfl

theorem jlt_fin (a b : ℚ) : jlt (fin a) (fin b) = decide (a < b) := rfl

theorem jle_fin (a b : ℚ) : jle (fin a) (fin b) = decide (a ≤ b) := rfl

theorem jdiv_fin (a b : ℚ) (hb : b ≠ 0) : jdiv (fin a) (fin b) = fin (qdiv a b) := by
  simp [jdiv, hb]

theorem jdiv_fin_zero_pos (a : ℚ) (ha : 0 < a) : jdiv (fin a) (fin 0) = inf := by
  simp [jdiv, ha]

theorem jdiv_fin_zero_zero : jdiv (fin 0) (fin 0) = nan := by
  simp [jdiv]

theorem agetI_eq_some_mem {xs : List (Option JsNumber)} {i : ℤ} {v : JsNumber}
    (h : agetI xs i = some v) : some v ∈ xs := by
  unfold agetI at h
  split at h
  · exact h ▸ List.get_mem xs _ _
  · exact absurd h (by simp)

theorem wilderUpdate_nan_nan (p : ℚ) (c : JsNumber) :
    wilderUpdate p (nan, nan) c = (nan, nan) := by
  simp [wilderUpdate, jmul, jadd, jdiv]

/-- Invariant propagation along the Wilder state scan. -/
theorem wilderScan_inv {P : JsNumber × JsNumber → Prop} {Q : JsNumber → Prop}
    (p : ℚ) (hstep : ∀ s c, P s → Q c → P (wilderUpdate p s c)) :
    ∀ (l : List JsNumber) (s0 : JsNumber × JsNumber), P s0 → (∀ c ∈ l, Q c) →
      ∀ s ∈ wilderScan p s0 l, P s := by
  intro l
  induction l with
  | nil =>
    intro s0 h0 _ s hs
    simp only [wilderScan, List.mem_singleton] at hs
    exact hs ▸ h0
  | cons c cs ih =>
    intro s0 h0 hq s hs
    simp only [wilderScan, List.mem_cons] at hs
    rcases hs with rfl | hs
    · exact h0
    · exact ih (wilderUpdate p s0 c) (hstep _ _ h0 (hq c (by simp)))
        (fun d hd => hq d (by simp [hd])) s hs

/-- Invariant propagation along the seed gain/loss fold. -/
theorem foldl_gainLossInit_inv {P : JsNumber × JsNumber → Prop} {Q : JsNumber → Prop}
    (hstep : ∀ s c, P s → Q c → P (gainLossInit s c)) :
    ∀ (l : List JsNumber) (s0 : JsNumber × JsNumber), P s0 → (∀ c ∈ l, Q c) →
      P (l.foldl gainLossInit s0) := by
  intro l
  induction l with
  | nil => intro s0 h0 _; exact h0
  | cons c cs ih =>
    intro s0 h0 hq
    exact ih (gainLossInit s0 c) (hstep _ _ h0 (hq c (by simp)))
      (fun d hd => hq d (by simp [hd]))

theorem gainLossInit_nonneg (s : JsNumber × JsNumber) (c : JsNumber)
    (hs : ∃ a b : ℚ, 0 ≤ a ∧ 0 ≤ b ∧ s = (fin a, fin b))
    (hc : ∃ q : ℚ, c = fin q) :
    ∃ a b : ℚ, 0 ≤ a ∧ 0 ≤ b ∧ gainLossInit s c = (fin a, fin b) := by
  obtain ⟨a, b, ha, hb, rfl⟩ := hs
  obtain ⟨q, rfl⟩ := hc
  simp only [gainLossInit, jlt_fin, jsub_fin, jadd_fin, decide_eq_true_eq]
  split_ifs with h
  · exact ⟨qadd a q, b, by rw [qadd_eq]; linarith, hb, rfl⟩
  · refine ⟨a, qadd b (qneg q), ha, ?_, rfl⟩
    rw [qadd_eq, qneg_eq]
    push_neg at h
    linarith

theorem gainLossInit_pos (s : JsNumber × JsNumber) (c : JsNumber)
    (hs : ∃ a : ℚ, 0 ≤ a ∧ s = (fin a, fin 0))
    (hc : ∃ q : ℚ, 0 < q ∧ c = fin q) :
    ∃ a : ℚ, 0 < a ∧ gainLossInit s c = (fin a, fin 0) := by
  obtain ⟨a, ha, rfl⟩ := hs
  obtain ⟨q, hq, rfl⟩ := hc
  simp only [gainLossInit, jlt_fin, jadd_fin, decide_eq_true_eq]
  rw [if_pos hq]
  exact ⟨qadd a q, by rw [qadd_eq]; linarith, rfl⟩

theorem foldl_gainLossInit_pos :
    ∀ (l : List JsNumber), (∀ c ∈ l, ∃ q : ℚ, 0 < q ∧ c = fin q) →
      ∀ (s : JsNumber × JsNumber), (∃ a : ℚ, 0 < a ∧ s = (fin a, fin 0)) →
      ∃ a : ℚ, 0 < a ∧ l.foldl gainLossInit s = (fin a, fin 0) := by
  intro l
  induction l with
  | nil => intro _ s hs; exact hs
  | cons c cs ih =>
    intro hq s hs
    obtain ⟨a, ha, rfl⟩ := hs
    obtain ⟨a', ha', heq⟩ := gainLossInit_pos _ c ⟨a, le_of_lt ha, rfl⟩ (hq c (by simp))
    rw [List.foldl_cons, heq]
    exact ih (fun d hd => hq d (by simp [hd])) _ ⟨a', ha', rfl⟩

theorem wilderUpdate_nonneg {period : ℕ} (hp : 1 ≤ period)
    (s : JsNumber × JsNumber) (c : JsNumber)
    (hs : ∃ a b : ℚ, 0 ≤ a ∧ 0 ≤ b ∧ s = (fin a, fin b))
    (hc : ∃ q : ℚ, c = fin q) :
    ∃ a b : ℚ, 0 ≤ a ∧ 0 ≤ b ∧
      wilderUpdate (period : ℚ) s c = (fin a, fin b) := by
  obtain ⟨a, b, ha, hb, rfl⟩ := hs
  obtain ⟨q, rfl⟩ := hc
  have hper' : (0:ℚ) < period := by exact_mod_cast hp
  have hp1 : (0:ℚ) ≤ (period : ℚ) - 1 := by
    have : (1:ℚ) ≤ (period : ℚ) := by exact_mod_cast hp
    linarith
  simp only [wilderUpdate, jlt_fin, jneg_fin, jmul_fin, decide_eq_true_eq]
  split_ifs with hg hl hl
  all_goals simp only [jadd_fin]
  all_goals rw [jdiv_fin _ _ hper'.ne', jdiv_fin _ _ hper'.ne']
  all_goals refine ⟨_, _, ?_, ?_, rfl⟩
  all_goals rw [qdiv_eq, qadd_eq, qmul_eq, qsub_eq]
  all_goals first
    | (rw [qneg_eq]
       apply div_nonneg _ (le_of_lt hper')
       nlinarith)
    | (apply div_nonneg _ (le_of_lt hper')
       nlinarith)

theorem wilderUpdate_pos {period : ℕ} (hp : 1 ≤ period)
    (s : JsNumber × JsNumber) (c : JsNumber)
    (hs : ∃ a : ℚ, 0 < a ∧ s = (fin a, fin 0))
    (hc : ∃ q : ℚ, 0 < q ∧ c = fin q) :
    ∃ a : ℚ, 0 < a ∧ wilderUpdate (period : ℚ) s c = (fin a, fin 0) := by
  obtain ⟨a, ha, rfl⟩ := hs
  obtain ⟨q, hq, rfl⟩ := hc
  have hper' : (0:ℚ) < period := by exact_mod_cast hp
  have hp1 : (0:ℚ) ≤ (period : ℚ) - 1 := by
    have : (1:ℚ) ≤ (period : ℚ) := by exact_mod_cast hp
    linarith
  simp only [wilderUpdate, jlt_fin, jneg_fin, jmul_fin, decide_eq_true_eq]
  rw [if_pos hq, if_neg (by linarith)]
  simp only [jadd_fin]
  rw [jdiv_fin _ _ hper'.ne', jdiv_fin _ _ hper'.ne']
  refine ⟨qdiv (qadd (qmul a (qsub (↑period) 1)) q) ↑period, ?_, ?_⟩
  · rw [qdiv_eq, qadd_eq, qmul_eq, qsub_eq]
    apply div_pos _ hper'
    nlinarith
  · have hz : qdiv (qadd (qmul 0 (qsub ((period:ℕ) : ℚ) 1)) 0) ↑period = 0 := by
      rw [qdiv_eq, qadd_eq, qmul_eq]
      simp
    rw [hz]

theorem rsiVal_nan_nan : rsiVal (nan, nan) = nan := rfl

theorem rsiVal_pos_zero (a : ℚ) (ha : 0 < a) : rsiVal (fin a, fin 0) = fin 100 := by
  simp only [rsiVal]
  rw [jdiv_fin_zero_pos a ha]
  show fin (qadd 100 (qneg 0)) = fin 100
  norm_num [qadd_eq, qneg_eq]

theorem rsiVal_fin (a b : ℚ) (ha : 0 ≤ a) (hb : 0 ≤ b) :
    rsiVal (fin a, fin b) = nan ∨
    (jle (fin 0) (rsiVal (fin a, fin b)) = true ∧
      jle (rsiVal (fin a, fin b)) (fin 100) = true) := by
  rcases hb.eq_or_lt with hb0 | hbpos
  · rcases ha.eq_or_lt with ha0 | hapos
    · left
      rw [← ha0, ← hb0]
      rfl
    · right
      rw [← hb0]
      rw [rsiVal_pos_zero a hapos, jle_fin, jle_fin]
      constructor <;> · apply decide_eq_true; norm_num
  · right
    have hr : (0:ℚ) ≤ qdiv a b := by
      rw [qdiv_eq]
      exact div_nonneg ha (le_of_lt hbpos)
    have hsum : (0:ℚ) < qadd 1 (qdiv a b) := by
      rw [qadd_eq]
      linarith
    simp only [rsiVal, jdiv_fin a b hbpos.ne', jadd_fin,
      jdiv_fin _ _ hsum.ne', jsub_fin, jle_fin]
    have hle : 100 / qadd 1 (qdiv a b) ≤ 100 :=
      div_le_self (by norm_num) (by rw [qadd_eq]; linarith)
    have hpos : 0 < 100 / qadd 1 (qdiv a b) := div_pos (by norm_num) hsum
    constructor <;> apply decide_eq_true
    · rw [qadd_eq, qneg_eq, qdiv_eq]
      linarith
    · rw [qadd_eq, qneg_eq, qdiv_eq]
      linarith

theorem priceChanges_fin (l : List ℚ) :
    ∀ c ∈ priceChanges (l.map fin), ∃ q : ℚ, c = fin q := by
  induction l with
  | nil => simp [priceChanges]
  | cons p rest ih =>
    cases rest with
    | nil => simp [priceChanges]
    | cons r rest2 =>
      intro c hc
      simp only [priceChanges, List.map_cons, List.drop_succ_cons, List.drop_zero,
        List.zipWith_cons_cons, List.mem_cons] at hc
      rcases hc with rfl | hmem
      · exact ⟨qadd r (qneg p), rfl⟩
      · refine ih c ?_
        simpa only [priceChanges, List.map_cons, List.drop_succ_cons, List.drop_zero,
          List.zipWith_cons_cons] using hmem

theorem priceChanges_pos (l : List ℚ) (hl : List.Chain' (· < ·) l) :
    ∀ c ∈ priceChanges (l.map fin), ∃ q : ℚ, 0 < q ∧ c = fin q := by
  induction l with
  | nil => simp [priceChanges]
  | cons p rest ih =>
    cases rest with
    | nil => simp [priceChanges]
    | cons r rest2 =>
      intro c hc
      rw [List.chain'_cons] at hl
      simp only [priceChanges, List.map_cons, List.drop_succ_cons, List.drop_zero,
        List.zipWith_cons_cons, List.mem_cons] at hc
      rcases hc with rfl | hmem
      · refine ⟨qadd r (qneg p), ?_, rfl⟩
        rw [qadd_eq, qneg_eq]
        linarith [hl.1]
      · refine ih hl.2 c ?_
        simpa only [priceChanges, List.map_cons, List.drop_succ_cons, List.drop_zero,
          List.zipWith_cons_cons] using hmem

/-- C8 counterexample: on a flat 15-price series both smoothed averages
are 0, `avgGain/avgLoss` is `0/0` = NaN, and the produced RSI value is
NaN — outside [0, 100] under the JS ordering, with no explicit
division-by-zero policy in the code. -/
theorem c8_counterexample :
    agetI (calculateRSI (List.replicate 15 (fin 1)) 14) 14 = some JsNumber.nan ∧
    (jle (fin 0) JsNumber.nan && jle JsNumber.nan (fin 100)) = false :=
  ⟨by decide, by decide⟩

/-- C8 amended: every value `calculateRSI` produces is either NaN (when
both smoothed averages are 0, e.g. a flat window — the `0/0` case has
no explicit handling) or lies in [0, 100]; and on a strictly increasing
price series (positive period) every produced value saturates at
exactly 100, via the IEEE `x/0 = Infinity` path rather than an explicit
division-by-zero check. -/
theorem c8_rsi_range_and_saturation (prices : List ℚ) (period : ℕ) (i : ℤ)
    (v : JsNumber)
    (hv : agetI (calculateRSI (prices.map fin) period) i = some v) :
    (v = JsNumber.nan ∨ (jle (fin 0) v = true ∧ jle v (fin 100) = true)) ∧
    (List.Chain' (· < ·) prices → 1 ≤ period → v = fin 100) := by
  by_cases hlen : (prices.map fin).length < period + 1
  · rw [calculateRSI_nil hlen, agetI_nil] at hv
    simp at hv
  · have hmem := agetI_eq_some_mem hv
    simp only [calculateRSI, if_neg hlen] at hmem
    rcases List.mem_append.mp hmem with hrep | hmap
    · have := List.eq_of_mem_replicate hrep
      simp at this
    · obtain ⟨s, hs, heq⟩ := List.mem_map.mp hmap
      have heq' : some (rsiVal s) = some v := heq
      have hveq : v = rsiVal s := by
        injection heq' with h'
        exact h'.symm
      subst hveq
      have hfin := priceChanges_fin prices
      constructor
      · rcases Nat.eq_zero_or_pos period with hp0 | hp1
        · subst hp0
          simp only [Nat.cast_zero, List.take_zero, List.foldl_nil, List.drop_zero] at hs
          rw [jdiv_fin_zero_zero] at hs
          have hall := wilderScan_inv (P := fun t => t = (nan, nan)) (Q := fun _ => True)
            ((0:ℕ) : ℚ) (fun t c ht _ => by rw [ht]; exact wilderUpdate_nan_nan _ c)
            (priceChanges (prices.map fin)) (nan, nan) rfl (fun _ _ => trivial)
          rw [hall s (by simpa using hs), rsiVal_nan_nan]
          exact Or.inl rfl
        · have hper' : ((period:ℚ)) ≠ 0 := by
            have : (0:ℚ) < period := by exact_mod_cast hp1
            exact this.ne'
          obtain ⟨ga, la, hga, hla, hseq⟩ :=
            foldl_gainLossInit_inv
              (P := fun t => ∃ a b : ℚ, 0 ≤ a ∧ 0 ≤ b ∧ t = (fin a, fin b))
              (Q := fun c => ∃ q : ℚ, c = fin q)
              (fun t c ht hc => gainLossInit_nonneg t c ht hc)
              ((priceChanges (prices.map fin)).take period) (fin 0, fin 0)
              ⟨0, 0, le_refl 0, le_refl 0, rfl⟩
              (fun c hc => hfin c (List.take_subset _ _ hc))
          rw [hseq] at hs
          rw [jdiv_fin _ _ hper', jdiv_fin _ _ hper'] at hs
          obtain ⟨a, b, ha, hb, hseq2⟩ :=
            wilderScan_inv
              (P := fun t => ∃ a b : ℚ, 0 ≤ a ∧ 0 ≤ b ∧ t = (fin a, fin b))
              (Q := fun c => ∃ q : ℚ, c = fin q)
              ((period:ℕ) : ℚ)
              (fun t c ht hc => wilderUpdate_nonneg hp1 t c ht hc)
              ((priceChanges (prices.map fin)).drop period) _
              ⟨qdiv ga ↑period, qdiv la ↑period,
                by rw [qdiv_eq]; exact div_nonneg hga (by positivity),
                by rw [qdiv_eq]; exact div_nonneg hla (by positivity), rfl⟩
              (fun c hc => hfin c (List.drop_subset _ _ hc)) s hs
          rw [hseq2]
          exact rsiVal_fin a b ha hb
      · intro hchain hp1
        have hpos := priceChanges_pos prices hchain
        have hper0 : (0:ℚ) < (period:ℚ) := by exact_mod_cast hp1
        have hlt : (priceChanges (prices.map fin)).take period ≠ [] := by
          have hn : period + 1 ≤ (prices.map fin).length := by omega
          have hlen2 : (priceChanges (prices.map fin)).length =
              (prices.map fin).length - 1 := by
            simp only [priceChanges, List.length_zipWith, List.length_drop]
            omega
          intro hnil
          have := congrArg List.length hnil
          rw [List.length_take, hlen2] at this
          simp only [List.length_nil] at this
          omega
        obtain ⟨c0, cs, hcons⟩ := List.exists_cons_of_ne_nil hlt
        have hmemc0 : c0 ∈ (priceChanges (prices.map fin)).take period := by
          rw [hcons]; simp
        obtain ⟨g1, hg1, hstep1⟩ := gainLossInit_pos (fin 0, fin 0) c0
          ⟨0, le_refl 0, rfl⟩ (hpos c0 (List.take_subset _ _ hmemc0))
        obtain ⟨ga, hga, hseq⟩ := foldl_gainLossInit_pos cs
          (fun d hd => hpos d (List.take_subset _ _ (by rw [hcons]; simp [hd])))
          (gainLossInit (fin 0, fin 0) c0) ⟨g1, hg1, hstep1⟩
        rw [hcons, List.foldl_cons] at hs
        rw [hseq] at hs
        have hz : qdiv 0 ((period:ℕ) : ℚ) = 0 := by
          rw [qdiv_eq]; simp
        rw [jdiv_fin _ _ hper0.ne', jdiv_fin _ _ hper0.ne', hz] at hs
        obtain ⟨a, ha, hseq2⟩ :=
          wilderScan_inv (P := fun t => ∃ a : ℚ, 0 < a ∧ t = (fin a, fin 0))
            (Q := fun c => ∃ q : ℚ, 0 < q ∧ c = fin q)
            ((period:ℕ) : ℚ)
            (fun t c ht hc => wilderUpdate_pos hp1 t c ht hc)
            ((priceChanges (prices.map fin)).drop period) _
            ⟨qdiv ga ↑period, by rw [qdiv_eq]; exact div_pos hga hper0, rfl⟩
            (fun c hc => hpos c (List.drop_subset _ _ hc)) s hs
        rw [hseq2]
        exact rsiVal_pos_zero a ha

/-- An increasing 16-price series. -/
def incrPrices : List ℚ :=
  [1, 2, 3, 4, 5, 6, 7, 8, 9, 10, 11, 12, 13, 14, 15, 16]

theorem incrPrices_chain : List.Chain' (· < ·) incrPrices := by
  norm_num [incrPrices, List.chain'_cons]

/-- C8 witness: on a strictly increasing 16-price series the 14-period
RSI value at index 14 is exactly 100 and lies in [0, 100]. -/
theorem c8_witness :
    agetI (calculateRSI (incrPrices.map fin) 14) 14 = some (fin 100) ∧
    (fin (100:ℚ) = JsNumber.nan ∨
      (jle (fin 0) (fin (100:ℚ)) = true ∧ jle (fin (100:ℚ)) (fin 100) = true)) ∧
    fin (100:ℚ) = fin 100 :=
  ⟨by decide,
   (c8_rsi_range_and_saturation incrPrices 14 14 (fin 100) (by decide)).1,
   (c8_rsi_range_and_saturation incrPrices 14 14 (fin 100) (by decide)).2
     incrPrices_chain (by decide)⟩

/-! ## Claim C9: MACD histogram alignment -/

theorem jsub_nan_right (x : JsNumber) : jsub x nan = nan := by cases x <;> rfl

theorem agetI_natCast (xs : List (Option JsNumber)) (i : ℕ) :
    agetI xs (i : ℤ) = (xs[i]?).getD none := by
  unfold agetI
  by_cases h : i < xs.length
  · rw [dif_pos ⟨by positivity, by simpa using h⟩]
    simp [List.get_eq_getElem, List.getElem?_eq_getElem h]
  · rw [dif_neg (by simpa using h), List.getElem?_eq_none (by omega)]
    rfl

theorem agetI_mapRange_lt (n : ℕ) (f : ℕ → Option JsNumber) (k : ℕ) (hk : k < n) :
    agetI ((List.range n).map f) (k : ℤ) = f k := by
  rw [agetI_map_range, if_pos ⟨by positivity, by simpa using hk⟩, Int.toNat_natCast]

theorem emaScan_length (k : JsNumber) :
    ∀ (l : List JsNumber) (prev : JsNumber), (emaScan k prev l).length = l.length + 1 := by
  intro l
  induction l with
  | nil => intro prev; rfl
  | cons c cs ih => intro prev; simp [emaScan, ih]

theorem calculateEMA_eq {prices : List JsNumber} {period : ℕ}
    (h : period ≤ prices.length) :
    calculateEMA prices period = List.replicate (period - 1) none ++
      (emaScan (jdiv (fin 2) (fin (qadd (period : ℚ) 1)))
        (jdiv (jsum (prices.take period)) (fin (period : ℚ)))
        (prices.drop period)).map some := by
  rw [calculateEMA, if_neg (by omega)]

theorem calculateEMA_length {prices : List JsNumber} {period : ℕ}
    (hp : 1 ≤ period) (h : period ≤ prices.length) :
    (calculateEMA prices period).length = prices.length := by
  rw [calculateEMA_eq h, List.length_append, List.length_replicate, List.length_map,
    emaScan_length, List.length_drop]
  omega

theorem agetI_calculateEMA_front {prices : List JsNumber} {period : ℕ}
    (h : period ≤ prices.length) {i : ℕ} (hlt : i < period - 1) :
    agetI (calculateEMA prices period) (i : ℤ) = none := by
  rw [calculateEMA_eq h, agetI_natCast, List.getElem?_append,
    if_pos (by simpa using hlt), List.getElem?_replicate, if_pos hlt]
  rfl

theorem agetI_calculateEMA_some {prices : List JsNumber} {period : ℕ}
    (hp : 1 ≤ period) (h : period ≤ prices.length) {i : ℕ}
    (hge : period - 1 ≤ i) (hlt : i < prices.length) :
    ∃ w, agetI (calculateEMA prices period) (i : ℤ) = some w := by
  rw [calculateEMA_eq h, agetI_natCast, List.getElem?_append,
    if_neg (by simp only [List.length_replicate]; omega), List.length_replicate,
    List.getElem?_map]
  have hbound : i - (period - 1) <
      (emaScan (jdiv (fin 2) (fin (qadd (period : ℚ) 1)))
        (jdiv (jsum (prices.take period)) (fin (period : ℚ)))
        (prices.drop period)).length := by
    rw [emaScan_length, List.length_drop]
    omega
  rw [List.getElem?_eq_getElem hbound]
  exact ⟨_, rfl⟩

theorem reduceOption_length_all_some :
    ∀ (l : List (Option JsNumber)), (∀ x ∈ l, ∃ v, x = some v) →
      l.reduceOption.length = l.length := by
  intro l
  induction l with
  | nil => intro _; rfl
  | cons x xs ih =>
    intro hall
    obtain ⟨v, rfl⟩ := hall x (by simp)
    simp only [List.reduceOption_cons_of_some, List.length_cons]
    rw [ih (fun y hy => hall y (by simp [hy]))]

/-- C9 counterexample: on a 34-bar series the histogram entry at index
25 (before the full 33-bar warm-up) is present and holds NaN
(`macd[25] - signal[0]` subtracts a hole), not absent/undefined. -/
theorem c9_counterexample :
    agetI (calculateMACD (List.replicate 34 (fin 100)) 12 26 9).histogram 25 =
      some JsNumber.nan ∧
    some JsNumber.nan ≠ (none : Option JsNumber) :=
  ⟨by decide, by decide⟩

/-- C9 amended: with at least 34 prices, the signal line is the
9-period EMA of the defined macd values (`macd.filter(v => v !==
undefined)`), whose length is `prices.length − 25`; histogram indices
below 25 are absent; indices 25–32 hold NaN (`macd[i]` minus a signal
hole), present rather than absent; and from index 33 on,
`histogram[i] = macd[i] − signal[i − 25]` with both operands defined —
the re-alignment by the length difference is correct at every fully
warmed-up index. -/
theorem c9_histogram_alignment (prices : List ℚ) (h34 : 34 ≤ prices.length)
    (i : ℕ) (hi : i < prices.length) :
    (calculateMACD (prices.map fin) 12 26 9).signal =
      calculateEMA ((calculateMACD (prices.map fin) 12 26 9).macd.reduceOption) 9 ∧
    (calculateMACD (prices.map fin) 12 26 9).signal.length = prices.length - 25 ∧
    (i < 25 →
      agetI (calculateMACD (prices.map fin) 12 26 9).histogram (i : ℤ) = none) ∧
    (25 ≤ i → i < 33 →
      agetI (calculateMACD (prices.map fin) 12 26 9).histogram (i : ℤ) =
        some JsNumber.nan) ∧
    (33 ≤ i →
      agetI (calculateMACD (prices.map fin) 12 26 9).macd (i : ℤ) ≠ none ∧
      agetI (calculateMACD (prices.map fin) 12 26 9).signal ((i : ℤ) - 25) ≠ none ∧
      agetI (calculateMACD (prices.map fin) 12 26 9).histogram (i : ℤ) =
        some (jsub
          (toNum (agetI (calculateMACD (prices.map fin) 12 26 9).macd (i : ℤ)))
          (toNum (agetI (calculateMACD (prices.map fin) 12 26 9).signal
            ((i : ℤ) - 25))))) := by
  have hn : (prices.map fin).length = prices.length := List.length_map _ _
  have h12 : 12 ≤ (prices.map fin).length := by omega
  have h26 : 26 ≤ (prices.map fin).length := by omega
  have hfnone : ∀ j : ℕ, j < 25 →
      (match agetI (calculateEMA (prices.map fin) 12) (j : ℤ),
        agetI (calculateEMA (prices.map fin) 26) (j : ℤ) with
      | some a, some b => some (jsub a b)
      | _, _ => none) = none := by
    intro j hj
    rw [agetI_calculateEMA_front h26 (by omega)]
    cases agetI (calculateEMA (prices.map fin) 12) (j : ℤ) <;> rfl
  have hfsome : ∀ j : ℕ, 25 ≤ j → j < prices.length →
      ∃ w, (match agetI (calculateEMA (prices.map fin) 12) (j : ℤ),
        agetI (calculateEMA (prices.map fin) 26) (j : ℤ) with
      | some a, some b => some (jsub a b)
      | _, _ => none) = some w := by
    intro j hj hjn
    obtain ⟨wf, hwf⟩ := agetI_calculateEMA_some (by norm_num) h12
      (show 12 - 1 ≤ j by omega) (by omega)
    obtain ⟨ws, hws⟩ := agetI_calculateEMA_some (by norm_num) h26
      (show 26 - 1 ≤ j by omega) (by omega)
    rw [hwf, hws]
    exact ⟨jsub wf ws, rfl⟩
  simp only [calculateMACD]
  set M : List (Option JsNumber) := (List.range (prices.map fin).length).map
    (fun (j : ℕ) =>
      match agetI (calculateEMA (prices.map fin) 12) (j : ℤ),
        agetI (calculateEMA (prices.map fin) 26) (j : ℤ) with
      | some a, some b => some (jsub a b)
      | _, _ => none) with hM
  have hMlen : M.reduceOption.length = prices.length - 25 := by
    rw [hM, hn, show prices.length = 25 + (prices.length - 25) by omega,
      List.range_add, List.map_append, List.reduceOption_append _ _,
      List.length_append]
    have hfirst : ((List.range 25).map fun (j : ℕ) =>
        (match agetI (calculateEMA (prices.map fin) 12) (j : ℤ),
          agetI (calculateEMA (prices.map fin) 26) (j : ℤ) with
        | some a, some b => some (jsub a b)
        | _, _ => none)) = List.replicate 25 none := by
      rw [List.eq_replicate_iff]
      refine ⟨by simp, fun x hx => ?_⟩
      obtain ⟨j, hj, rfl⟩ := List.mem_map.mp hx
      exact hfnone j (List.mem_range.mp hj)
    rw [hfirst, reduceOption_replicate_none, List.length_nil, List.map_map]
    rw [reduceOption_length_all_some _ ?hsome, List.length_map, List.length_range]
    · omega
    case hsome =>
      intro x hx
      obtain ⟨j, hj, rfl⟩ := List.mem_map.mp hx
      exact hfsome (25 + j) (by omega) (by have := List.mem_range.mp hj; omega)
  set S : List (Option JsNumber) := calculateEMA M.reduceOption 9 with hS
  have hSlen : S.length = prices.length - 25 := by
    rw [hS, calculateEMA_length (by norm_num) (by rw [hMlen]; omega), hMlen]
  have hoff : (prices.map fin).length - S.length = 25 := by
    rw [hn, hSlen]
    omega
  have htot : (prices.map fin).length - S.length + S.length = prices.length := by
    rw [hoff, hSlen]
    omega
  have hoffZ : (((prices.map fin).length - S.length : ℕ) : ℤ) = 25 := by
    rw [hoff]
    rfl
  refine ⟨trivial, hSlen, ?_, ?_, ?_⟩
  · intro h25
    rw [agetI_mapRange_lt _ _ i (by rw [htot]; exact hi)]
    rw [if_pos (by omega)]
  · intro h25 h33
    rw [agetI_mapRange_lt _ _ i (by rw [htot]; exact hi)]
    rw [if_neg (by omega)]
    rw [hoffZ, show ((i : ℤ) - 25) = ((i - 25 : ℕ) : ℤ) by omega]
    rw [show agetI S ((i - 25 : ℕ) : ℤ) = none from by
      rw [hS]
      exact agetI_calculateEMA_front (by rw [hMlen]; omega) (by omega)]
    rw [show toNum none = JsNumber.nan from rfl, jsub_nan_right]
  · intro h33
    have hiz : ((i : ℤ) - 25) = ((i - 25 : ℕ) : ℤ) := by omega
    obtain ⟨w, hw⟩ := hfsome i (by omega) hi
    have hMi : agetI M (i : ℤ) = some w := by
      rw [hM, agetI_mapRange_lt _ _ i (by rw [hn]; exact hi)]
      exact hw
    obtain ⟨w', hw'⟩ : ∃ w', agetI S ((i - 25 : ℕ) : ℤ) = some w' := by
      rw [hS]
      exact agetI_calculateEMA_some (by norm_num) (by rw [hMlen]; omega)
        (by omega) (by rw [hMlen]; omega)
    refine ⟨by rw [hMi]; simp, by rw [hiz, hw']; simp, ?_⟩
    rw [agetI_mapRange_lt _ _ i (by rw [htot]; exact hi)]
    rw [if_neg (by omega), hoffZ]

/-- C9 witness: the alignment statement applied to a flat 34-price
series at indices 10 (absent), 25 (NaN), and 33 (aligned difference). -/
theorem c9_witness :
    agetI (calculateMACD ((List.replicate 34 (100:ℚ)).map fin) 12 26 9).histogram
      ((10 : ℕ) : ℤ) = none ∧
    agetI (calculateMACD ((List.replicate 34 (100:ℚ)).map fin) 12 26 9).histogram
      ((25 : ℕ) : ℤ) = some JsNumber.nan ∧
    agetI (calculateMACD ((List.replicate 34 (100:ℚ)).map fin) 12 26 9).histogram
      ((33 : ℕ) : ℤ) =
      some (jsub
        (toNum (agetI (calculateMACD ((List.replicate 34 (100:ℚ)).map fin) 12 26 9).macd
          ((33 : ℕ) : ℤ)))
        (toNum (agetI (calculateMACD ((List.replicate 34 (100:ℚ)).map fin) 12 26 9).signal
          (((33 : ℕ) : ℤ) - 25)))) :=
  ⟨(c9_histogram_alignment (List.replicate 34 (100:ℚ)) (by decide) 10 (by decide)).2.2.1
     (by decide),
   (c9_histogram_alignment (List.replicate 34 (100:ℚ)) (by decide) 25 (by decide)).2.2.2.1
     (by decide) (by decide),
   ((c9_histogram_alignment (List.replicate 34 (100:ℚ)) (by decide) 33 (by decide)).2.2.2.2
     (by decide)).2.2⟩

/-- The default daily-loss threshold base is nonnegative. -/
theorem defaultMaxLossNonneg :
    0 ≤ defaultConfig.initialCapital * defaultConfig.maxDailyLoss := by
  norm_num [defaultConfig, Rat.mkRat_eq_div]

/-- C10 witness: the fail-open statement at the default configuration
and a well-formed LONG signal. -/
theorem c10_witness :
    checkDailyLossLimit defaultConfig (Except.error ()) 0 = false ∧
    hasOpenPosition (Except.error ()) demoSignal.symbol = false ∧
    validateTrade defaultConfig demoSignal 100 (Except.error ()) 0 =
      validateTrade defaultConfig demoSignal 100 (Except.ok []) 0 ∧
    (validateTrade defaultConfig demoSignal 100 (Except.error ()) 0).valid = true :=
  c10_fail_open defaultConfig demoSignal 100 0 defaultMaxLossNonneg

end BinanceBot